import Mathlib

/-!
# Slack notifier of applikatoni (`server/slack_notifier.go`)

A shallow embedding of `newSlackNotifier`, `NotifySlack`, `generateSlackSummary`
and `SendSlackRequest`, together with the fragments of the Go standard library
they call (`fmt.Sprintf`, `text/template`, `encoding/json`, `unicode/utf8`).

* A Go `string` is a sequence of bytes, modelled as `List Nat`.
* A Go `error` value is modelled by the text its `Error()` method returns;
  a possibly-nil `error` is an `Option`.
* Side effects (collaborator calls, log lines, HTTP POSTs) are recorded in an
  explicit trace; a run either returns or panics.
-/

set_option maxRecDepth 100000
set_option maxHeartbeats 1000000

namespace SlackNotifier

/-! ## Strings and `fmt` -/

/-- A Go string: a finite sequence of bytes. -/
abbrev GoString := List Nat

/-- A non-nil Go `error`, identified with the text of `Error()`. -/
abbrev GoError := GoString

/-- The function `utf8.EncodeRune`: the UTF-8 bytes of a code point; surrogates
and values above U+10FFFF are written as U+FFFD. -/
def encodeRune (r : Nat) : GoString :=
  if r ≤ 0x7F then [r]
  else if r ≤ 0x7FF then [0xC0 + r / 64, 0x80 + r % 64]
  else if 0x10FFFF < r ∨ (0xD800 ≤ r ∧ r ≤ 0xDFFF) then [0xEF, 0xBF, 0xBD]
  else if r ≤ 0xFFFF then [0xE0 + r / 4096, 0x80 + r / 64 % 64, 0x80 + r % 64]
  else [0xF0 + r / 262144, 0x80 + r / 4096 % 64, 0x80 + r / 64 % 64, 0x80 + r % 64]

/-- The bytes of a string literal of the source (Go source text is UTF-8). -/
def lit (s : String) : GoString :=
  s.data.flatMap (fun c => encodeRune c.toNat)

/-- Decimal rendering of a Go `int`, as the verb `%v` prints it. -/
def formatInt : Int → GoString
  | Int.ofNat n => (Nat.toDigits 10 n).map Char.toNat
  | Int.negSucc n => 0x2D :: (Nat.toDigits 10 (n + 1)).map Char.toNat

/-- An operand of `fmt.Sprintf` / `log.Printf`. -/
inductive Arg where
  | str (s : GoString)
  | int (n : Int)
  | err (e : Option GoError)
  deriving DecidableEq

/-- How `fmt` prints one operand under the verbs `%v` and `%s`. -/
def formatArg (verb : Char) : Arg → GoString
  | Arg.str s => s
  | Arg.int n =>
    if verb = 's' then lit "%!s(int=" ++ formatInt n ++ lit ")" else formatInt n
  | Arg.err (some e) => e
  | Arg.err none => if verb = 's' then lit "%!s(<nil>)" else lit "<nil>"

/-- The loop of `fmt.Sprintf` over the format, for the verbs the notifier uses
(`%v`, `%s`) and `%%`. A verb without operand prints `%!v(MISSING)`; any other
character after `%` is outside the modelled fragment and is printed as Go
prints an unknown verb without operand. -/
def sprintfAux : List Char → List Arg → GoString
  | [], _ => []
  | c :: rest, args =>
    if c = '%' then
      match rest, args with
      | [], _ => lit "%!(NOVERB)"
      | v :: rest', [] =>
        if v = '%' then 0x25 :: sprintfAux rest' []
        else lit "%!" ++ encodeRune v.toNat ++ lit "(MISSING)" ++ sprintfAux rest' []
      | v :: rest', a :: args' =>
        if v = 'v' ∨ v = 's' then formatArg v a ++ sprintfAux rest' args'
        else if v = '%' then 0x25 :: sprintfAux rest' (a :: args')
        else lit "%!" ++ encodeRune v.toNat ++ lit "(MISSING)" ++ sprintfAux rest' (a :: args')
    else encodeRune c.toNat ++ sprintfAux rest args

/-- The function `fmt.Sprintf`, on the fragment described at `sprintfAux`. -/
def sprintf (format : String) (args : List Arg) : GoString :=
  sprintfAux format.data args

/-! ## `text/template` -/

/-- A value stored in the `map[string]interface{}` handed to a template. -/
inductive Scalar where
  | str (s : GoString)
  | bool (b : Bool)
  | int (n : Int)
  deriving DecidableEq

/-- The data a template is executed on: a string-keyed map, or a bare value. -/
inductive Data where
  | map (m : List (String × Scalar))
  | scalar (v : Scalar)

/-- A node of a parsed template: literal text, a field action, or an
if/else action on a field. -/
inductive Node where
  | text (s : GoString)
  | field (name : String)
  | ifElse (name : String) (thn : List Node) (els : List Node)

/-- A lexical item of a template: text outside the delimiters, or the content
of an action between the delimiters. -/
inductive Tok where
  | text (s : List Char)
  | action (s : List Char)

/-- Emit the pending text, if any. -/
def flushText (acc : List Char) (toks : List Tok) : List Tok :=
  if acc = [] then toks else Tok.text acc.reverse :: toks

/-- The lexer: splits the template source at the delimiters. The flag tells
whether the scan is inside an action; `acc` holds the item read so far,
reversed. An action left open is an error. -/
def lexTemplate : List Char → Bool → List Char → Option (List Tok)
  | [], false, acc => some (flushText acc [])
  | [], true, _ => none
  | [c], inAction, acc => lexTemplate [] inAction (c :: acc)
  | c :: c' :: rest, inAction, acc =>
    if inAction = false ∧ c = '{' ∧ c' = '{' then
      (lexTemplate rest true []).map (flushText acc)
    else if inAction = true ∧ c = '}' ∧ c' = '}' then
      (lexTemplate rest false []).map (fun ts => Tok.action acc.reverse :: ts)
    else lexTemplate (c' :: rest) inAction (c :: acc)

/-- An action of the fragment of the template language the notifier uses. -/
inductive Action where
  | field (name : String)
  | ifField (name : String)
  | elseA
  | endA

/-- Is the text a Go identifier. -/
def isIdent (s : List Char) : Bool :=
  match s with
  | [] => false
  | c :: cs => (c.isAlpha || c = '_') && cs.all (fun x => x.isAlphanum || x = '_')

/-- Drop blanks at both ends of an action. -/
def trimSpaces (s : List Char) : List Char :=
  ((s.dropWhile (fun c => c = ' ')).reverse.dropWhile (fun c => c = ' ')).reverse

/-- Classify the content of an action; anything outside the fragment is a
parse error. -/
def parseAction (s : List Char) : Option Action :=
  match trimSpaces s with
  | '.' :: name => if isIdent name then some (Action.field (String.mk name)) else none
  | 'i' :: 'f' :: ' ' :: '.' :: name =>
    if isIdent name then some (Action.ifField (String.mk name)) else none
  | ['e', 'l', 's', 'e'] => some Action.elseA
  | ['e', 'n', 'd'] => some Action.endA
  | _ => none

/-- An open `if` during parsing: its field, the nodes of its first branch
(reversed), and the nodes of its else branch once `else` was read. -/
structure Frame where
  name : String
  thn : List Node
  els : Option (List Node)

/-- Add a node to the innermost open branch, or to the top level. -/
def pushNode (n : Node) (top : List Node) : List Frame → List Node × List Frame
  | [] => (n :: top, [])
  | f :: fs =>
    match f.els with
    | none => (top, { f with thn := n :: f.thn } :: fs)
    | some e => (top, { f with els := some (n :: e) } :: fs)

/-- The tree builder: `top` holds the top-level nodes read so far (reversed),
`stack` the open `if` actions. -/
def buildTree : List Tok → List Node → List Frame → Option (List Node)
  | [], top, [] => some top.reverse
  | [], _, _ :: _ => none
  | Tok.text s :: rest, top, stack =>
    let r := pushNode (Node.text (s.flatMap (fun c => encodeRune c.toNat))) top stack
    buildTree rest r.1 r.2
  | Tok.action s :: rest, top, stack =>
    match parseAction s with
    | none => none
    | some (Action.field name) =>
      let r := pushNode (Node.field name) top stack
      buildTree rest r.1 r.2
    | some (Action.ifField name) =>
      buildTree rest top ({ name := name, thn := [], els := none } :: stack)
    | some Action.elseA =>
      match stack with
      | [] => none
      | f :: fs =>
        match f.els with
        | some _ => none
        | none => buildTree rest top ({ f with els := some [] } :: fs)
    | some Action.endA =>
      match stack with
      | [] => none
      | f :: fs =>
        let r := pushNode (Node.ifElse f.name f.thn.reverse ((f.els.getD []).reverse)) top fs
        buildTree rest r.1 r.2

/-- The method `Template.Parse`, on the fragment described above. -/
def parseTemplate (src : String) : Option (List Node) :=
  match lexTemplate src.data false [] with
  | none => none
  | some toks => buildTree toks [] []

/-- Look a key up in a map. -/
def lookupKey (m : List (String × Scalar)) (name : String) : Option Scalar :=
  (m.find? (fun kv => kv.1 = name)).map (fun kv => kv.2)

/-- How a template prints a value. -/
def printScalar : Scalar → GoString
  | Scalar.str s => s
  | Scalar.bool b => if b then lit "true" else lit "false"
  | Scalar.int n => formatInt n

/-- The truth of a value for `if`: a boolean itself, a non-empty string, a
non-zero integer. -/
def truth : Scalar → Bool
  | Scalar.str s => !s.isEmpty
  | Scalar.bool b => b
  | Scalar.int n => n != 0

/-- Evaluate a field on the data: a key missing from a map gives no value,
a field of a bare value is an execution error. -/
def evalField (data : Data) (name : String) : Except GoError (Option Scalar) :=
  match data with
  | Data.map m => Except.ok (lookupKey m name)
  | Data.scalar _ => Except.error (lit "can't evaluate field " ++ lit name)

mutual
/-- Execute one node, appending to the output written so far. Like
`Template.Execute` it keeps what was written before an error. -/
def execNode (data : Data) (out : GoString) : Node → GoString × Option GoError
  | Node.text s => (out ++ s, none)
  | Node.field name =>
    match evalField data name with
    | Except.error e => (out, some e)
    | Except.ok (some v) => (out ++ printScalar v, none)
    | Except.ok none => (out ++ lit "<no value>", none)
  | Node.ifElse name thn els =>
    match evalField data name with
    | Except.error e => (out, some e)
    | Except.ok (some v) => if truth v then execNodes data out thn else execNodes data out els
    | Except.ok none => execNodes data out els
/-- Execute a list of nodes in order, stopping at the first error. -/
def execNodes (data : Data) (out : GoString) : List Node → GoString × Option GoError
  | [] => (out, none)
  | n :: ns =>
    match execNode data out n with
    | (out', some e) => (out', some e)
    | (out', none) => execNodes data out' ns
end

/-- The method `Template.Execute` into an empty `bytes.Buffer`: the buffer's
content afterwards and the error returned. -/
def templateExecute (tmpl : List Node) (data : Data) : GoString × Option GoError :=
  execNodes data [] tmpl

/-! ## The notifier: data model -/

/-- Modelled from the spec: `models.Deployment` (its declaration is in
another package); the fields the notifier reads. -/
structure Deployment where
  Id : Int
  UserId : Int
  ApplicationName : GoString
  TargetName : GoString
  CommitSha : GoString
  Branch : GoString
  Comment : GoString
  deriving DecidableEq

/-- Modelled from the spec: `models.Target`. -/
structure Target where
  Name : GoString
  SlackUrl : GoString
  deriving DecidableEq

/-- Modelled from the spec: `models.Application`. -/
structure Application where
  Name : GoString
  GitHubOwner : GoString
  GitHubRepo : GoString
  Targets : List Target
  deriving DecidableEq

/-- Modelled from the spec: `models.User`. -/
structure User where
  Id : Int
  Name : GoString
  deriving DecidableEq

/-- Modelled from the spec: the process-wide `config` value, of which the
notifier reads `Host` and `SSLEnabled`. -/
structure Config where
  Host : GoString
  SSLEnabled : Bool
  deriving DecidableEq

/-- The constant `slackSummaryTmplStr`. -/
def slackSummaryTmplStr : String :=
  "{{.GitHubRepo}} {{if .Success}}Successfully Deployed{{else}}Deploy Failed{{end}}:\n" ++
  "{{.Username}} deployed {{.Branch}} on {{.Target}} :pizza:\n" ++
  "\n" ++
  "> {{.Comment}}\n" ++
  "<{{.GitHubUrl}}|View latest commit on GitHub>\n" ++
  "<{{.DeploymentURL}}|Open deployment in Applikatoni>"

/-- The variable `slackSummaryTemplate`: `template.Must` of the parsed
constant. `template.Must` panics at program start on a parse error; the
constant parses (`slackSummaryTemplate_eq`). -/
def slackSummaryTemplate : List Node :=
  match parseTemplate slackSummaryTmplStr with
  | some t => t
  | none => []

/-- The function `generateSlackSummary`: the rendered text and the error of
`Execute`. -/
def generateSlackSummary (config : Config) (d : Deployment) (a : Application) (u : User)
    (success : Bool) : GoString × Option GoError :=
  let protocol : GoString := if config.SSLEnabled then lit "https" else lit "http"
  let deploymentUrl := sprintf "%s://%s/%v/deployments/%v"
    [Arg.str protocol, Arg.str config.Host, Arg.str a.GitHubRepo, Arg.int d.Id]
  let gitHubUrl := sprintf "https://github.com/%v/%v/commit/%v"
    [Arg.str a.GitHubOwner, Arg.str a.GitHubRepo, Arg.str d.CommitSha]
  templateExecute slackSummaryTemplate (Data.map [
    ("GitHubRepo", Scalar.str a.GitHubRepo),
    ("Success", Scalar.bool success),
    ("Branch", Scalar.str d.Branch),
    ("Target", Scalar.str d.TargetName),
    ("Username", Scalar.str u.Name),
    ("Comment", Scalar.str d.Comment),
    ("GitHubUrl", Scalar.str gitHubUrl),
    ("DeploymentURL", Scalar.str deploymentUrl)])

/-! ## `unicode/utf8` and `encoding/json` -/

/-- The constant `utf8.RuneError`, U+FFFD. -/
def RuneError : Nat := 0xFFFD

/-- The function `utf8.DecodeRuneInString`: the first code point of the string
and the number of bytes it takes; an invalid or truncated encoding gives
`(RuneError, 1)`, the empty string `(RuneError, 0)`. Masks and shifts are
written as remainders and products (`c0 & 0x1F` is `c0 % 32`, `x << 6 | y`
with `y < 64` is `x * 64 + y`). -/
def decodeRune : GoString → Nat × Nat
  | [] => (RuneError, 0)
  | c0 :: rest =>
    if c0 < 0x80 then (c0, 1)
    else if c0 < 0xC0 then (RuneError, 1)
    else
      match rest with
      | [] => (RuneError, 1)
      | c1 :: rest1 =>
        if c1 < 0x80 ∨ 0xC0 ≤ c1 then (RuneError, 1)
        else if c0 < 0xE0 then
          let r := c0 % 32 * 64 + c1 % 64
          if r ≤ 0x7F then (RuneError, 1) else (r, 2)
        else
          match rest1 with
          | [] => (RuneError, 1)
          | c2 :: rest2 =>
            if c2 < 0x80 ∨ 0xC0 ≤ c2 then (RuneError, 1)
            else if c0 < 0xF0 then
              let r := c0 % 16 * 4096 + c1 % 64 * 64 + c2 % 64
              if r ≤ 0x7FF then (RuneError, 1)
              else if 0xD800 ≤ r ∧ r ≤ 0xDFFF then (RuneError, 1)
              else (r, 3)
            else
              match rest2 with
              | [] => (RuneError, 1)
              | c3 :: _ =>
                if c3 < 0x80 ∨ 0xC0 ≤ c3 then (RuneError, 1)
                else if c0 < 0xF8 then
                  let r := c0 % 8 * 262144 + c1 % 64 * 4096 + c2 % 64 * 64 + c3 % 64
                  if r ≤ 0xFFFF ∨ 0x10FFFF < r then (RuneError, 1) else (r, 4)
                else (RuneError, 1)

/-- The table `hex` of `encoding/json`: the digit of a value below 16. -/
def hexDigit (n : Nat) : Nat :=
  (lit "0123456789abcdef").getD n 0x30

/-- What `encodeState.string` writes for a byte below `utf8.RuneSelf`: the
byte itself, or its escape (control characters, the quote, the backslash and
the HTML characters `<`, `>`, `&`). Go releases differ only in the spelling
they choose for some control characters; every spelling denotes the same
byte. -/
def escapeByte (b : Nat) : GoString :=
  if 0x20 ≤ b ∧ b ≠ 0x5C ∧ b ≠ 0x22 ∧ b ≠ 0x3C ∧ b ≠ 0x3E ∧ b ≠ 0x26 then [b]
  else if b = 0x5C ∨ b = 0x22 then [0x5C, b]
  else if b = 0x0A then lit "\\n"
  else if b = 0x0D then lit "\\r"
  else if b = 0x09 then lit "\\t"
  else lit "\\u00" ++ [hexDigit (b / 16), hexDigit (b % 16)]

/-- The loop of `encodeState.string` from index `i` on, `s` being the string
from `i`; each turn advances by at least one byte, so the length of the string
bounds the number of turns (`encodeLoop_fuel`). As the package documents,
"String values encode as JSON strings coerced to valid UTF-8, replacing invalid
bytes with the Unicode replacement rune": an invalid byte is written as the
escape of U+FFFD, the separators U+2028 and U+2029 as escapes, any other code
point as its own bytes. -/
def encodeLoop : Nat → GoString → GoString
  | 0, _ => []
  | _ + 1, [] => []
  | fuel + 1, b :: rest =>
    if b < 0x80 then escapeByte b ++ encodeLoop fuel rest
    else
      let r := decodeRune (b :: rest)
      if r.1 = RuneError ∧ r.2 = 1 then lit "\\ufffd" ++ encodeLoop fuel rest
      else if r.1 = 0x2028 ∨ r.1 = 0x2029 then
        lit "\\u202" ++ [hexDigit (r.1 % 16)] ++ encodeLoop fuel ((b :: rest).drop r.2)
      else (b :: rest).take r.2 ++ encodeLoop fuel ((b :: rest).drop r.2)

/-- The method `encodeState.string`: a JSON string literal for a Go string. -/
def encodeString (s : GoString) : GoString :=
  0x22 :: (encodeLoop s.length s ++ [0x22])

/-- The loop of `utf8.ValidString` from index `i` on, `s` being the string from
`i`: every code point decodes without the error of size one. -/
def validLoop : Nat → GoString → Bool
  | 0, _ => true
  | _ + 1, [] => true
  | fuel + 1, b :: rest =>
    if b < 0x80 then validLoop fuel rest
    else
      let r := decodeRune (b :: rest)
      if r.1 = RuneError ∧ r.2 = 1 then false
      else validLoop fuel ((b :: rest).drop r.2)

/-- The function `utf8.ValidString`: the string consists entirely of valid
UTF-8 encodings, that is, it is the encoding of a sequence of Unicode
characters (`ValidString_iff`). -/
def ValidString (s : GoString) : Bool :=
  validLoop s.length s

/-- The type `slackMsg`. -/
structure slackMsg where
  Text : GoString
  deriving DecidableEq

/-- The call `json.Marshal` on a `slackMsg`: an object with the one member
named by the struct tag; encoding a struct with a string field has no error
case. -/
def jsonMarshal (m : slackMsg) : GoString × Option GoError :=
  (lit "\x7b\"text\":" ++ encodeString m.Text ++ lit "\x7d", none)

/-- The value of a hexadecimal digit. -/
def hexVal (c : Nat) : Option Nat :=
  if 0x30 ≤ c ∧ c ≤ 0x39 then some (c - 0x30)
  else if 0x61 ≤ c ∧ c ≤ 0x66 then some (c - 0x61 + 10)
  else if 0x41 ≤ c ∧ c ≤ 0x46 then some (c - 0x41 + 10)
  else none

/-- The code point of a four-digit escape. -/
def hex4 (h1 h2 h3 h4 : Nat) : Option Nat :=
  match hexVal h1, hexVal h2, hexVal h3, hexVal h4 with
  | some a, some b, some c, some d => some (a * 4096 + b * 256 + c * 16 + d)
  | _, _, _, _ => none

/-- The character a two-character JSON escape stands for. -/
def simpleEscape (e : Nat) : Option Nat :=
  if e = 0x22 then some 0x22
  else if e = 0x5C then some 0x5C
  else if e = 0x2F then some 0x2F
  else if e = 0x62 then some 0x08
  else if e = 0x66 then some 0x0C
  else if e = 0x6E then some 0x0A
  else if e = 0x72 then some 0x0D
  else if e = 0x74 then some 0x09
  else none

/-- Reading of a JSON string literal (RFC 8259) after its opening quote: the
string it denotes, as UTF-8 bytes, and the input after the closing quote.
Escapes of surrogate halves are not read (the result is `none`). -/
def decodeStringBody : GoString → Option (GoString × GoString)
  | [] => none
  | b :: rest =>
    if b = 0x22 then some ([], rest)
    else if b = 0x5C then
      match rest with
      | [] => none
      | e :: rest1 =>
        if e = 0x75 then
          match rest1 with
          | h1 :: h2 :: h3 :: h4 :: rest2 =>
            match hex4 h1 h2 h3 h4 with
            | none => none
            | some r =>
              if 0xD800 ≤ r ∧ r ≤ 0xDFFF then none
              else (decodeStringBody rest2).map (fun p => (encodeRune r ++ p.1, p.2))
          | _ => none
        else
          match simpleEscape e with
          | none => none
          | some x => (decodeStringBody rest1).map (fun p => (x :: p.1, p.2))
    else if b < 0x20 then none
    else (decodeStringBody rest).map (fun p => (b :: p.1, p.2))

/-- JSON insignificant whitespace. -/
def isJsonSpace (b : Nat) : Bool :=
  b = 0x20 || b = 0x09 || b = 0x0A || b = 0x0D

/-- Expect one byte after optional whitespace. -/
def expectByte (b : Nat) (s : GoString) : Option GoString :=
  match s.dropWhile isJsonSpace with
  | c :: rest => if c = b then some rest else none
  | [] => none

/-- Reading of a JSON text that is an object with exactly one member whose
value is a string: the member's name and its value. Any other text gives
`none`. -/
def jsonDecodeSingleton (s : GoString) : Option (GoString × GoString) :=
  match expectByte 0x7B s with
  | none => none
  | some s1 =>
    match expectByte 0x22 s1 with
    | none => none
    | some s2 =>
      match decodeStringBody s2 with
      | none => none
      | some (key, s3) =>
        match expectByte 0x3A s3 with
        | none => none
        | some s4 =>
          match expectByte 0x22 s4 with
          | none => none
          | some s5 =>
            match decodeStringBody s5 with
            | none => none
            | some (val, s6) =>
              match expectByte 0x7D s6 with
              | none => none
              | some s7 => if s7.dropWhile isJsonSpace = [] then some (key, val) else none

/-! ## The notifier: collaborators and effects -/

/-- The fields of `http.Response` the notifier reads. -/
structure Response where
  Status : GoString
  StatusCode : Int
  deriving DecidableEq

/-- The collaborators of the notifier: the process-wide configuration, the
storage queries `getDeployment` and `getUser` (closed over the database
handle), the registry lookups `findApplication` and `findTarget`, and the
network behind `http.Post`, which returns a response pointer (possibly nil)
and an error (possibly nil). -/
structure World where
  config : Config
  getDeployment : Int → Except GoError Deployment
  findApplication : GoString → Except GoError Application
  findTarget : Application → GoString → Except GoError Target
  getUser : Int → Except GoError User
  httpPost : GoString → GoString → GoString → Option Response × Option GoError

/-- An observable step of a notification task. -/
inductive Event where
  | getDeployment (id : Int)
  | findApplication (name : GoString)
  | findTarget (app : Application) (name : GoString)
  | getUser (id : Int)
  | generateSlackSummary (d : Deployment) (a : Application) (u : User) (success : Bool)
  | SendSlackRequest (d : Deployment) (t : Target) (a : Application) (summary : GoString)
  | httpPost (url : GoString) (contentType : GoString) (body : GoString)
  | log (line : GoString)
  deriving DecidableEq

/-- A run of a function: the steps it took, and whether it ended in a panic
instead of returning. -/
structure Run where
  trace : List Event
  panicked : Bool
  deriving DecidableEq

/-- Prefix a run with the steps taken before it. -/
def Run.after (evs : List Event) (r : Run) : Run :=
  { trace := evs ++ r.trace, panicked := r.panicked }

/-- The call `log.Printf`: one log line, the formatted message (the date and
time the standard logger writes in front of it are not modelled). -/
def logPrintf (format : String) (args : List Arg) : Event :=
  Event.log (sprintf format args)

/-- The POSTs of a trace: url, content type, body. -/
def posts : List Event → List (GoString × GoString × GoString)
  | [] => []
  | Event.httpPost url ct body :: rest => (url, ct, body) :: posts rest
  | _ :: rest => posts rest

/-- The log lines of a trace. -/
def logLines : List Event → List GoString
  | [] => []
  | Event.log line :: rest => line :: logLines rest
  | _ :: rest => logLines rest

/-- The function `SendSlackRequest`. Reading a field of a nil response is a
nil-pointer dereference: the run panics. -/
def SendSlackRequest (w : World) (d : Deployment) (t : Target) (a : Application)
    (summary : GoString) : Run :=
  Run.after [Event.SendSlackRequest d t a summary] <|
  match jsonMarshal { Text := summary } with
  | (_, some err) =>
    { trace := [logPrintf "Error creating Slack notification %s\n" [Arg.err (some err)]],
      panicked := false }
  | (payload, none) =>
    Run.after [Event.httpPost t.SlackUrl (lit "application/json") payload] <|
    match w.httpPost t.SlackUrl (lit "application/json") payload with
    | (none, some _) =>
      -- `err != nil` holds; the operand `resp.Status` of the log call is read on nil
      { trace := [], panicked := true }
    | (none, none) =>
      -- `resp.StatusCode` is read on nil
      { trace := [], panicked := true }
    | (some resp, err) =>
      if err ≠ none ∨ resp.StatusCode ≠ 200 then
        { trace := [logPrintf
            "Error while notifying Slack about deployment of %v on %v, %v! err: %s, resp: %s\n"
            [Arg.str d.ApplicationName, Arg.str d.TargetName, Arg.str d.CommitSha,
             Arg.err err, Arg.str resp.Status]],
          panicked := false }
      else
        { trace := [logPrintf
            "Successfully notified Slack about deployment of %v on %v, %v!\n"
            [Arg.str d.ApplicationName, Arg.str d.TargetName, Arg.str d.CommitSha]],
          panicked := false }

/-- The function `NotifySlack`. -/
def NotifySlack (w : World) (deploymentId : Int) (success : Bool) : Run :=
  Run.after [Event.getDeployment deploymentId] <|
  match w.getDeployment deploymentId with
  | Except.error err =>
    { trace := [logPrintf "Could not find deployment with id %v, %s\n"
        [Arg.int deploymentId, Arg.err (some err)]],
      panicked := false }
  | Except.ok deployment =>
    Run.after [Event.findApplication deployment.ApplicationName] <|
    match w.findApplication deployment.ApplicationName with
    | Except.error err =>
      { trace := [logPrintf "Could not find application with name %v, %s\n"
          [Arg.str deployment.ApplicationName, Arg.err (some err)]],
        panicked := false }
    | Except.ok application =>
      Run.after [Event.findTarget application deployment.TargetName] <|
      match w.findTarget application deployment.TargetName with
      | Except.error err =>
        { trace := [logPrintf "Could not find target with name %v, %s\n"
            [Arg.str deployment.TargetName, Arg.err (some err)]],
          panicked := false }
      | Except.ok target =>
        if target.SlackUrl = [] then { trace := [], panicked := false }
        else
          Run.after [Event.getUser deployment.UserId] <|
          match w.getUser deployment.UserId with
          | Except.error err =>
            { trace := [logPrintf "Could not find User with id %v, %s\n"
                [Arg.int deployment.UserId, Arg.err (some err)]],
              panicked := false }
          | Except.ok user =>
            Run.after [Event.generateSlackSummary deployment application user success] <|
            match generateSlackSummary w.config deployment application user success with
            | (_, some err) =>
              { trace := [logPrintf "Could not generate Slack deployment summary, %s\n"
                  [Arg.err (some err)]],
                panicked := false }
            | (summary, none) => SendSlackRequest w deployment target application summary

/-! ## The dispatcher -/

/-- Modelled from the spec: `deploy.LogEntry` (declared in package `deploy`),
with the two fields the listener reads, over the type `τ` of entry kinds of
that package. -/
structure LogEntry (τ : Type) where
  DeploymentId : Int
  EntryType : τ

/-- A task started by a `go NotifySlack(db, id, success)` statement. -/
structure Launch where
  deploymentId : Int
  success : Bool
  deriving DecidableEq

/-- What a launched task runs. -/
def Launch.run (w : World) (l : Launch) : Run :=
  NotifySlack w l.deploymentId l.success

/-- The listener returned by `newSlackNotifier`, run on the entries received
until the channel is closed: the tasks it starts, in order. The constants
`deploy.DEPLOYMENT_SUCCESS` and `deploy.DEPLOYMENT_FAIL` are parameters. -/
def newSlackNotifier {τ : Type} [DecidableEq τ] (DEPLOYMENT_SUCCESS DEPLOYMENT_FAIL : τ) :
    List (LogEntry τ) → List Launch
  | [] => []
  | entry :: logs =>
    if entry.EntryType = DEPLOYMENT_SUCCESS then
      { deploymentId := entry.DeploymentId, success := true } ::
        newSlackNotifier DEPLOYMENT_SUCCESS DEPLOYMENT_FAIL logs
    else if entry.EntryType = DEPLOYMENT_FAIL then
      { deploymentId := entry.DeploymentId, success := false } ::
        newSlackNotifier DEPLOYMENT_SUCCESS DEPLOYMENT_FAIL logs
    else newSlackNotifier DEPLOYMENT_SUCCESS DEPLOYMENT_FAIL logs

/-! ## Texts the statements refer to -/

/-- The commit link of the summary. -/
def commitLink (a : Application) (d : Deployment) : GoString :=
  lit "https://github.com/" ++ (a.GitHubOwner ++ (lit "/" ++ (a.GitHubRepo ++
    (lit "/commit/" ++ d.CommitSha))))

/-- The deployment link of the summary; the scheme follows `SSLEnabled`. -/
def deploymentLink (config : Config) (a : Application) (d : Deployment) : GoString :=
  (if config.SSLEnabled then lit "https" else lit "http") ++ (lit "://" ++ (config.Host ++
    (lit "/" ++ (a.GitHubRepo ++ (lit "/deployments/" ++ formatInt d.Id)))))

/-- The part of the summary from the colon on: deployer, branch, target,
comment and both links. -/
def summaryTail (config : Config) (d : Deployment) (a : Application) (u : User) : GoString :=
  lit ":\n" ++ (u.Name ++ (lit " deployed " ++ (d.Branch ++ (lit " on " ++ (d.TargetName ++
    (lit " :pizza:\n\n> " ++ (d.Comment ++ (lit "\n<" ++ (commitLink a d ++
    (lit "|View latest commit on GitHub>\n<" ++ (deploymentLink config a d ++
    lit "|Open deployment in Applikatoni>")))))))))))

/-- The log line of a lookup that failed: the kind of the missing entity, the
name and the value of the key the lookup used, and the lookup's error. -/
def notFoundLine (kind : String) (keyName : String) (key : GoString) (err : GoError) :
    GoString :=
  lit "Could not find " ++ (lit kind ++ (lit " with " ++ (lit keyName ++ (lit " " ++
    (key ++ (lit ", " ++ (err ++ lit "\n")))))))

/-- The log line of a delivery that succeeded. -/
def deliveredLine (d : Deployment) : GoString :=
  lit "Successfully notified Slack about deployment of " ++ (d.ApplicationName ++
    (lit " on " ++ (d.TargetName ++ (lit ", " ++ (d.CommitSha ++ lit "!\n")))))

/-- The log line of a delivery that failed: the identifiers, the transport
error as `%s` prints it, and the status text of the response. -/
def deliveryFailedLine (d : Deployment) (err : Option GoError) (status : GoString) :
    GoString :=
  lit "Error while notifying Slack about deployment of " ++ (d.ApplicationName ++
    (lit " on " ++ (d.TargetName ++ (lit ", " ++ (d.CommitSha ++ (lit "! err: " ++
    (formatArg 's' (Arg.err err) ++ (lit ", resp: " ++ (status ++ lit "\n")))))))))

/-! ## Concrete collaborators -/

/-- A deployment with id 42. -/
def demoDeployment : Deployment :=
  { Id := 42, UserId := 7, ApplicationName := lit "app", TargetName := lit "production",
    CommitSha := lit "abc123", Branch := lit "main", Comment := lit "fix bug" }

/-- A target with a webhook. -/
def demoTarget : Target :=
  { Name := lit "production", SlackUrl := lit "https://hooks.slack.com/services/T0/B0/X" }

/-- An application with that target. -/
def demoApplication : Application :=
  { Name := lit "app", GitHubOwner := lit "acme", GitHubRepo := lit "app",
    Targets := [demoTarget] }

/-- The user who deployed. -/
def demoUser : User :=
  { Id := 7, Name := lit "alice" }

/-- A configuration with TLS enabled. -/
def demoConfig : Config :=
  { Host := lit "ci.acme.com", SSLEnabled := true }

/-- A world in which deployment 42 resolves completely and the webhook
answers 200. -/
def demoWorld : World :=
  { config := demoConfig
    getDeployment := fun id =>
      if id = 42 then Except.ok demoDeployment
      else Except.error (lit "sql: no rows in result set")
    findApplication := fun name =>
      if name = lit "app" then Except.ok demoApplication
      else Except.error (lit "application not found")
    findTarget := fun app name =>
      match app.Targets.find? (fun t => t.Name = name) with
      | some t => Except.ok t
      | none => Except.error (lit "target not found")
    getUser := fun id =>
      if id = 7 then Except.ok demoUser else Except.error (lit "sql: no rows in result set")
    httpPost := fun _ _ _ => (some { Status := lit "200 OK", StatusCode := 200 }, none) }

/-- The summary of deployment 42 in that world, for a success. -/
def demoSummary : String :=
  "app Successfully Deployed:\n" ++
  "alice deployed main on production :pizza:\n" ++
  "\n" ++
  "> fix bug\n" ++
  "<https://github.com/acme/app/commit/abc123|View latest commit on GitHub>\n" ++
  "<https://ci.acme.com/app/deployments/42|Open deployment in Applikatoni>"

/-- The storage knows no deployment. -/
def noDeploymentWorld : World :=
  { demoWorld with getDeployment := fun _ => Except.error (lit "sql: no rows in result set") }

/-- The registry knows no application. -/
def noApplicationWorld : World :=
  { demoWorld with findApplication := fun _ => Except.error (lit "application not found") }

/-- The application has no target of the name. -/
def noTargetWorld : World :=
  { demoWorld with findTarget := fun _ _ => Except.error (lit "target not found") }

/-- The storage knows no user. -/
def noUserWorld : World :=
  { demoWorld with getUser := fun _ => Except.error (lit "sql: no rows in result set") }

/-- A target without webhook. -/
def disabledTarget : Target :=
  { Name := lit "production", SlackUrl := [] }

/-- The target has no webhook; the storage knows the user. -/
def disabledWorld : World :=
  { demoWorld with findTarget := fun _ _ => Except.ok disabledTarget }

/-- The target has no webhook and the storage knows no user. -/
def disabledNoUserWorld : World :=
  { noUserWorld with findTarget := fun _ _ => Except.ok disabledTarget }

/-- The webhook answers 201. -/
def createdWorld : World :=
  { demoWorld with
    httpPost := fun _ _ _ => (some { Status := lit "201 Created", StatusCode := 201 }, none) }

/-- The connection to the webhook fails: no response, an error. -/
def transportErrorWorld : World :=
  { demoWorld with
    httpPost := fun _ _ _ => (none, some (lit "dial tcp: connection refused")) }

/-- A deployment whose comment is the single byte 0xFF, not valid UTF-8. -/
def rawByteDeployment : Deployment :=
  { demoDeployment with Comment := [0xFF] }

/-- The storage returns that deployment. -/
def rawByteWorld : World :=
  { demoWorld with getDeployment := fun _ => Except.ok rawByteDeployment }

/-- What the string encoder writes for one code point. -/
def encodedRune (n : Nat) : GoString :=
  if n < 0x80 then escapeByte n
  else if n = 0x2028 ∨ n = 0x2029 then lit "\\u202" ++ [hexDigit (n % 16)]
  else encodeRune n

/-! ## Facts about the library fragments -/

theorem slackSummaryTemplate_eq :
    slackSummaryTemplate =
      [Node.field "GitHubRepo", Node.text (lit " "),
       Node.ifElse "Success" [Node.text (lit "Successfully Deployed")]
         [Node.text (lit "Deploy Failed")],
       Node.text (lit ":\n"), Node.field "Username", Node.text (lit " deployed "),
       Node.field "Branch", Node.text (lit " on "), Node.field "Target",
       Node.text (lit " :pizza:\n\n> "), Node.field "Comment", Node.text (lit "\n<"),
       Node.field "GitHubUrl", Node.text (lit "|View latest commit on GitHub>\n<"),
       Node.field "DeploymentURL", Node.text (lit "|Open deployment in Applikatoni>")] := by
  rfl

theorem lit_cons (c : Char) (cs : List Char) :
    lit (String.mk (c :: cs)) = encodeRune c.toNat ++ lit (String.mk cs) := by
  simp [lit]

theorem char_scalar (c : Char) :
    c.toNat < 0xD800 ∨ (0xDFFF < c.toNat ∧ c.toNat < 0x110000) := by
  have h := c.valid
  simpa [Char.toNat, UInt32.isValidChar, Nat.isValidChar] using h

theorem encodeRune_length_pos (n : Nat) : 0 < (encodeRune n).length := by
  unfold encodeRune
  split_ifs <;> simp

theorem decodeRune_encodeRune (n : Nat) (rest : GoString)
    (hn : n < 0xD800 ∨ (0xDFFF < n ∧ n < 0x110000)) :
    decodeRune (encodeRune n ++ rest) = (n, (encodeRune n).length) := by
  unfold encodeRune
  by_cases h1 : n ≤ 0x7F
  · have : n < 0x80 := by omega
    simp [h1, decodeRune, this]
  · by_cases h2 : n ≤ 0x7FF
    · simp only [h1, h2, if_true, if_false, List.cons_append, List.nil_append, decodeRune]
      rw [if_neg (by omega), if_neg (by omega), if_neg (by omega), if_pos (by omega)]
      rw [if_neg (by omega)]
      simp
      omega
    · have h3 : ¬ (0x10FFFF < n ∨ (0xD800 ≤ n ∧ n ≤ 0xDFFF)) := by omega
      by_cases h4 : n ≤ 0xFFFF
      · simp only [h1, h2, h3, h4, if_true, if_false, List.cons_append, List.nil_append,
          decodeRune]
        rw [if_neg (by omega), if_neg (by omega), if_neg (by omega), if_neg (by omega),
          if_neg (by omega), if_pos (by omega)]
        rw [if_neg (by omega), if_neg (by omega)]
        simp
        omega
      · simp only [h1, h2, h3, h4, if_true, if_false, List.cons_append, List.nil_append,
          decodeRune]
        rw [if_neg (by omega), if_neg (by omega), if_neg (by omega), if_neg (by omega),
          if_neg (by omega), if_neg (by omega), if_neg (by omega), if_pos (by omega)]
        rw [if_neg (by omega)]
        simp
        omega
theorem decodeStringBody_cons (b : Nat) (rest : GoString) :
    decodeStringBody (b :: rest) =
      if b = 0x22 then some ([], rest)
      else if b = 0x5C then
        match rest with
        | [] => none
        | e :: rest1 =>
          if e = 0x75 then
            match rest1 with
            | h1 :: h2 :: h3 :: h4 :: rest2 =>
              match hex4 h1 h2 h3 h4 with
              | none => none
              | some r =>
                if 0xD800 ≤ r ∧ r ≤ 0xDFFF then none
                else (decodeStringBody rest2).map (fun p => (encodeRune r ++ p.1, p.2))
            | _ => none
          else
            match simpleEscape e with
            | none => none
            | some x => (decodeStringBody rest1).map (fun p => (x :: p.1, p.2))
      else if b < 0x20 then none
      else (decodeStringBody rest).map (fun p => (b :: p.1, p.2)) := by
  rcases rest with _ | ⟨e, _ | ⟨h1, _ | ⟨h2, _ | ⟨h3, _ | ⟨h4, rest2⟩⟩⟩⟩⟩ <;> rfl

theorem encodeRune_head_ge (n : Nat) (h : ¬ n < 0x80) :
    ∃ b t, encodeRune n = b :: t ∧ ¬ b < 0x80 := by
  unfold encodeRune
  split_ifs
  · omega
  · exact ⟨_, _, rfl, by omega⟩
  · exact ⟨_, _, rfl, by omega⟩
  · exact ⟨_, _, rfl, by omega⟩
  · exact ⟨_, _, rfl, by omega⟩

theorem encodeRune_length_ne_one (n : Nat) (h : ¬ n < 0x80) : (encodeRune n).length ≠ 1 := by
  unfold encodeRune
  split_ifs <;> simp
  omega

theorem encodeLoop_encodeRune (fuel n : Nat) (rest : GoString)
    (hn : n < 0xD800 ∨ (0xDFFF < n ∧ n < 0x110000)) :
    encodeLoop (fuel + 1) (encodeRune n ++ rest) = encodedRune n ++ encodeLoop fuel rest := by
  by_cases h1 : n < 0x80
  · have e : encodeRune n = [n] := by simp [encodeRune, Nat.le_of_lt_succ h1]
    simp [e, encodeLoop, encodedRune, h1]
  · obtain ⟨b, t, hb, hb80⟩ := encodeRune_head_ge n h1
    have hd := decodeRune_encodeRune n rest hn
    have hlen := encodeRune_length_ne_one n h1
    rw [hb] at hd hlen
    rw [hb, List.cons_append, encodeLoop, if_neg hb80]
    simp only [← List.cons_append] at hd ⊢
    rw [hd]
    simp only []
    rw [if_neg (by intro hc; exact hlen hc.2)]
    simp only [encodedRune, h1, if_false, hb]
    split_ifs <;> simp

theorem decodeStringBody_high (b : Nat) (t : GoString) (hb : 0x80 ≤ b) :
    decodeStringBody (b :: t) = (decodeStringBody t).map (fun p => (b :: p.1, p.2)) := by
  rw [decodeStringBody_cons, if_neg (by omega), if_neg (by omega), if_neg (by omega)]

theorem hex4_hexDigit :
    ∀ n < 128, hex4 0x30 0x30 (hexDigit (n / 16)) (hexDigit (n % 16)) = some n := by
  decide

theorem decodeStringBody_ascii (n : Nat) (hn : n < 0x80) (t : GoString) :
    decodeStringBody (escapeByte n ++ t) =
      (decodeStringBody t).map (fun p => (n :: p.1, p.2)) := by
  unfold escapeByte
  split_ifs with h1 h2 h3 h4 h5
  · rw [List.singleton_append, decodeStringBody_cons, if_neg (by omega), if_neg (by omega),
      if_neg (by omega)]
  · rcases h2 with h | h <;> subst h <;> simp [decodeStringBody_cons, simpleEscape]
  · subst h3; simp [decodeStringBody_cons, simpleEscape, lit, encodeRune]
  · subst h4; simp [decodeStringBody_cons, simpleEscape, lit, encodeRune]
  · subst h5; simp [decodeStringBody_cons, simpleEscape, lit, encodeRune]
  · have e : lit "\\u00" = [0x5C, 0x75, 0x30, 0x30] := rfl
    have hs : ¬ (0xD800 ≤ n ∧ n ≤ 0xDFFF) := by omega
    have he : encodeRune n = [n] := by simp [encodeRune, Nat.le_of_lt_succ hn]
    rw [e]
    simp only [List.cons_append, List.nil_append]
    rw [decodeStringBody_cons, if_neg (by decide), if_pos rfl]
    simp only [if_true, hex4_hexDigit n hn, hs, if_false, he, List.singleton_append]

theorem decodeStringBody_append_high (bs t : GoString) (hbs : ∀ b ∈ bs, 0x80 ≤ b) :
    decodeStringBody (bs ++ t) = (decodeStringBody t).map (fun p => (bs ++ p.1, p.2)) := by
  induction bs with
  | nil => simp
  | cons b bs ih =>
    rw [List.cons_append, decodeStringBody_high b _ (hbs b (List.mem_cons_self _ _)),
      ih (fun x hx => hbs x (List.mem_cons_of_mem _ hx))]
    cases decodeStringBody t <;> simp

theorem encodeRune_high (n : Nat) (h : ¬ n < 0x80) : ∀ b ∈ encodeRune n, 0x80 ≤ b := by
  unfold encodeRune
  split_ifs <;> simp <;> omega

theorem decodeStringBody_encodedRune (n : Nat) (t : GoString) :
    decodeStringBody (encodedRune n ++ t) =
      (decodeStringBody t).map (fun p => (encodeRune n ++ p.1, p.2)) := by
  unfold encodedRune
  split_ifs with h1 h2
  · have he : encodeRune n = [n] := by simp [encodeRune, Nat.le_of_lt_succ h1]
    rw [decodeStringBody_ascii n h1, he]
    rfl
  · rcases h2 with h | h <;> subst h <;>
      simp [decodeStringBody_cons, lit, encodeRune, hexDigit, hex4, hexVal]
  · exact decodeStringBody_append_high _ _ (encodeRune_high n h1)

theorem decodeStringBody_encodeLoop (cs : List Char) :
    ∀ (fuel : Nat) (tail : GoString), (lit (String.mk cs)).length ≤ fuel →
      decodeStringBody (encodeLoop fuel (lit (String.mk cs)) ++ 0x22 :: tail) =
        some (lit (String.mk cs), tail) := by
  induction cs with
  | nil =>
    intro fuel tail _
    have e : lit (String.mk []) = [] := rfl
    rw [e]
    cases fuel <;> simp [encodeLoop, decodeStringBody_cons]
  | cons c cs ih =>
    intro fuel tail hf
    rw [lit_cons] at hf ⊢
    have hpos := encodeRune_length_pos c.toNat
    rw [List.length_append] at hf
    obtain ⟨f, rfl⟩ : ∃ f, fuel = f + 1 := ⟨fuel - 1, by omega⟩
    rw [encodeLoop_encodeRune f _ _ (char_scalar c), List.append_assoc,
      decodeStringBody_encodedRune, ih f tail (by omega)]
    rfl

theorem jsonDecode_jsonMarshal (str : String) :
    jsonDecodeSingleton (jsonMarshal { Text := lit str }).1 = some (lit "text", lit str) := by
  have h := decodeStringBody_encodeLoop str.data (lit str).length (lit "\x7d") (le_refl _)
  have e : String.mk str.data = str := rfl
  rw [e] at h
  simp only [jsonMarshal, encodeString]
  have e1 : lit "\x7b\"text\":" = [0x7B, 0x22, 0x74, 0x65, 0x78, 0x74, 0x22, 0x3A] := rfl
  have e2 : lit "\x7d" = [0x7D] := rfl
  rw [e1]
  rw [e2] at h
  simp [jsonDecodeSingleton, expectByte, isJsonSpace, decodeStringBody_cons, h, e2]
  rfl

theorem decodeRune_valid (b : Nat) (rest : GoString) (hb : ¬ b < 0x80)
    (hv : ¬ ((decodeRune (b :: rest)).1 = RuneError ∧ (decodeRune (b :: rest)).2 = 1)) :
    b :: rest = encodeRune (decodeRune (b :: rest)).1 ++
        (b :: rest).drop (decodeRune (b :: rest)).2 ∧
      ((decodeRune (b :: rest)).1 < 0xD800 ∨
        (0xDFFF < (decodeRune (b :: rest)).1 ∧ (decodeRune (b :: rest)).1 < 0x110000)) ∧
      ¬ (decodeRune (b :: rest)).1 < 0x80 := by
  rcases rest with _ | ⟨c1, _ | ⟨c2, _ | ⟨c3, rest3⟩⟩⟩
  all_goals simp only [decodeRune, hb, if_false] at hv ⊢
  all_goals split_ifs at hv ⊢
  all_goals first
    | (exfalso; exact hv ⟨rfl, rfl⟩)
    | (refine ⟨?_, by simp only []; omega, by simp only []; omega⟩
       simp only [encodeRune, List.drop_succ_cons, List.drop_zero, List.drop_nil]
       split_ifs <;> first
         | (exfalso; omega)
         | (simp only [List.cons_append, List.nil_append, List.cons.injEq, and_true]
            omega))

theorem exists_char (c : Nat) (h : c < 0xD800 ∨ (0xDFFF < c ∧ c < 0x110000)) :
    ∃ ch : Char, ch.toNat = c := by
  have hlt : c < UInt32.size := by
    simp only [UInt32.size]
    omega
  exact ⟨⟨⟨⟨c, hlt⟩⟩, h⟩, rfl⟩

theorem validLoop_lit (fuel : Nat) :
    ∀ s : GoString, s.length ≤ fuel → validLoop fuel s = true →
      ∃ cs : List Char, s = lit (String.mk cs) := by
  induction fuel with
  | zero =>
    intro s hlen _
    have : s = [] := List.length_eq_zero.mp (Nat.le_zero.mp hlen)
    exact ⟨[], by rw [this]; rfl⟩
  | succ fuel ih =>
    intro s hlen hv
    rcases s with _ | ⟨b, rest⟩
    · exact ⟨[], rfl⟩
    · simp only [validLoop] at hv
      by_cases hb : b < 0x80
      · rw [if_pos hb] at hv
        obtain ⟨cs, hcs⟩ := ih rest (by simpa using hlen) hv
        obtain ⟨ch, hch⟩ := exists_char b (by omega)
        refine ⟨ch :: cs, ?_⟩
        have e : encodeRune b = [b] := by simp [encodeRune, Nat.le_of_lt_succ hb]
        rw [lit_cons, hch, e, ← hcs]
        rfl
      · rw [if_neg hb] at hv
        by_cases hr : (decodeRune (b :: rest)).1 = RuneError ∧ (decodeRune (b :: rest)).2 = 1
        · simp [hr] at hv
        · simp only [hr, if_false] at hv
          obtain ⟨hsplit, hscalar, _⟩ := decodeRune_valid b rest hb hr
          have hpos := encodeRune_length_pos (decodeRune (b :: rest)).1
          have hlen2 : ((b :: rest).drop (decodeRune (b :: rest)).2).length ≤ fuel := by
            have := congrArg List.length hsplit
            rw [List.length_append] at this
            omega
          obtain ⟨cs, hcs⟩ := ih _ hlen2 hv
          obtain ⟨ch, hch⟩ := exists_char _ hscalar
          refine ⟨ch :: cs, ?_⟩
          rw [lit_cons, hch, ← hcs]
          exact hsplit

theorem jsonDecode_jsonMarshal_valid (s : GoString) (h : ValidString s = true) :
    jsonDecodeSingleton (jsonMarshal { Text := s }).1 = some (lit "text", s) := by
  obtain ⟨cs, hcs⟩ := validLoop_lit s.length s (le_refl _) h
  rw [hcs]
  exact jsonDecode_jsonMarshal (String.mk cs)

theorem decodeRune_size_pos (b : Nat) (rest : GoString) :
    1 ≤ (decodeRune (b :: rest)).2 := by
  rcases rest with _ | ⟨c1, _ | ⟨c2, _ | ⟨c3, rest3⟩⟩⟩
  all_goals simp only [decodeRune]
  all_goals split_ifs
  all_goals simp

theorem encodeLoop_fuel (fuel₁ : Nat) :
    ∀ (fuel₂ : Nat) (s : GoString), s.length ≤ fuel₁ → s.length ≤ fuel₂ →
      encodeLoop fuel₁ s = encodeLoop fuel₂ s := by
  induction fuel₁ with
  | zero =>
    intro fuel₂ s h1 _
    have : s = [] := List.length_eq_zero.mp (Nat.le_zero.mp h1)
    subst this
    cases fuel₂ <;> rfl
  | succ fuel₁ ih =>
    intro fuel₂ s h1 h2
    rcases s with _ | ⟨b, rest⟩
    · cases fuel₂ <;> rfl
    · obtain ⟨f, rfl⟩ : ∃ f, fuel₂ = f + 1 := ⟨fuel₂ - 1, by simp at h2; omega⟩
      have hpos := decodeRune_size_pos b rest
      simp only [List.length_cons] at h1 h2
      have hd : ((b :: rest).drop (decodeRune (b :: rest)).2).length ≤ rest.length := by
        rw [List.length_drop, List.length_cons]
        omega
      simp only [encodeLoop]
      rw [ih f rest (by omega) (by omega),
        ih f ((b :: rest).drop (decodeRune (b :: rest)).2) (by omega) (by omega)]

theorem validLoop_fuel (fuel₁ : Nat) :
    ∀ (fuel₂ : Nat) (s : GoString), s.length ≤ fuel₁ → s.length ≤ fuel₂ →
      validLoop fuel₁ s = validLoop fuel₂ s := by
  induction fuel₁ with
  | zero =>
    intro fuel₂ s h1 _
    have : s = [] := List.length_eq_zero.mp (Nat.le_zero.mp h1)
    subst this
    cases fuel₂ <;> rfl
  | succ fuel₁ ih =>
    intro fuel₂ s h1 h2
    rcases s with _ | ⟨b, rest⟩
    · cases fuel₂ <;> rfl
    · obtain ⟨f, rfl⟩ : ∃ f, fuel₂ = f + 1 := ⟨fuel₂ - 1, by simp at h2; omega⟩
      have hpos := decodeRune_size_pos b rest
      simp only [List.length_cons] at h1 h2
      have hd : ((b :: rest).drop (decodeRune (b :: rest)).2).length ≤ rest.length := by
        rw [List.length_drop, List.length_cons]
        omega
      simp only [validLoop]
      rw [ih f rest (by omega) (by omega),
        ih f ((b :: rest).drop (decodeRune (b :: rest)).2) (by omega) (by omega)]
theorem validLoop_encodeRune (fuel n : Nat) (rest : GoString)
    (hn : n < 0xD800 ∨ (0xDFFF < n ∧ n < 0x110000)) :
    validLoop (fuel + 1) (encodeRune n ++ rest) = validLoop fuel rest := by
  by_cases h1 : n < 0x80
  · have e : encodeRune n = [n] := by simp [encodeRune, Nat.le_of_lt_succ h1]
    simp [e, validLoop, h1]
  · obtain ⟨b, t, hb, hb80⟩ := encodeRune_head_ge n h1
    have hd := decodeRune_encodeRune n rest hn
    have hlen := encodeRune_length_ne_one n h1
    rw [hb] at hd hlen
    rw [hb, List.cons_append, validLoop, if_neg hb80]
    simp only [← List.cons_append] at hd ⊢
    rw [hd]
    simp only []
    rw [if_neg (by intro hc; exact hlen hc.2)]
    simp

theorem ValidString_iff (s : GoString) :
    ValidString s = true ↔ ∃ str : String, s = lit str := by
  constructor
  · intro h
    obtain ⟨cs, hcs⟩ := validLoop_lit s.length s (le_refl _) h
    exact ⟨String.mk cs, hcs⟩
  · rintro ⟨⟨cs⟩, rfl⟩
    unfold ValidString
    generalize hf : (lit (String.mk cs)).length = fuel
    have hle : (lit (String.mk cs)).length ≤ fuel := hf.le
    clear hf
    induction cs generalizing fuel with
    | nil => cases fuel <;> rfl
    | cons c cs ih =>
      rw [lit_cons] at hle ⊢
      have hpos := encodeRune_length_pos c.toNat
      rw [List.length_append] at hle
      obtain ⟨f, rfl⟩ : ∃ f, fuel = f + 1 := ⟨fuel - 1, by omega⟩
      rw [validLoop_encodeRune f _ _ (char_scalar c)]
      exact ih f (by omega)

theorem sprintf_deploymentUrl (protocol host repo : GoString) (id : Int) :
    sprintf "%s://%s/%v/deployments/%v"
        [Arg.str protocol, Arg.str host, Arg.str repo, Arg.int id] =
      protocol ++ (lit "://" ++ (host ++ (lit "/" ++ (repo ++ (lit "/deployments/" ++ formatInt id))))) := by
  simp [sprintf, sprintfAux, formatArg, lit, encodeRune]

theorem sprintf_gitHubUrl (owner repo sha : GoString) :
    sprintf "https://github.com/%v/%v/commit/%v" [Arg.str owner, Arg.str repo, Arg.str sha] =
      lit "https://github.com/" ++ (owner ++ (lit "/" ++ (repo ++ (lit "/commit/" ++ sha)))) := by
  simp [sprintf, sprintfAux, formatArg, lit, encodeRune]

theorem generateSlackSummary_eq (config : Config) (d : Deployment) (a : Application)
    (u : User) (success : Bool) :
    generateSlackSummary config d a u success =
      (a.GitHubRepo ++ (lit " " ++
        ((if success then lit "Successfully Deployed" else lit "Deploy Failed") ++
        (lit ":\n" ++ (u.Name ++ (lit " deployed " ++ (d.Branch ++ (lit " on " ++
        (d.TargetName ++ (lit " :pizza:\n\n> " ++ (d.Comment ++ (lit "\n<" ++
        (sprintf "https://github.com/%v/%v/commit/%v"
          [Arg.str a.GitHubOwner, Arg.str a.GitHubRepo, Arg.str d.CommitSha] ++
        (lit "|View latest commit on GitHub>\n<" ++
        (sprintf "%s://%s/%v/deployments/%v"
          [Arg.str (if config.SSLEnabled then lit "https" else lit "http"),
           Arg.str config.Host, Arg.str a.GitHubRepo, Arg.int d.Id] ++
        lit "|Open deployment in Applikatoni>")))))))))))))), none) := by
  unfold generateSlackSummary templateExecute
  rw [slackSummaryTemplate_eq]
  cases success <;>
    simp [execNodes, execNode, evalField, lookupKey, printScalar, truth, List.find?]

theorem sprintf_deployment (a b : Arg) :
    sprintf "Could not find deployment with id %v, %s\n" [a, b] =
      lit "Could not find " ++ (lit "deployment" ++ (lit " with " ++ (lit "id" ++ (lit " " ++
        (formatArg 'v' a ++ (lit ", " ++ (formatArg 's' b ++ lit "\n"))))))) := by
  simp [sprintf, sprintfAux, lit, encodeRune]

theorem sprintf_application (a b : Arg) :
    sprintf "Could not find application with name %v, %s\n" [a, b] =
      lit "Could not find " ++ (lit "application" ++ (lit " with " ++ (lit "name" ++ (lit " " ++
        (formatArg 'v' a ++ (lit ", " ++ (formatArg 's' b ++ lit "\n"))))))) := by
  simp [sprintf, sprintfAux, lit, encodeRune]

theorem sprintf_target (a b : Arg) :
    sprintf "Could not find target with name %v, %s\n" [a, b] =
      lit "Could not find " ++ (lit "target" ++ (lit " with " ++ (lit "name" ++ (lit " " ++
        (formatArg 'v' a ++ (lit ", " ++ (formatArg 's' b ++ lit "\n"))))))) := by
  simp [sprintf, sprintfAux, lit, encodeRune]

theorem sprintf_user (a b : Arg) :
    sprintf "Could not find User with id %v, %s\n" [a, b] =
      lit "Could not find " ++ (lit "User" ++ (lit " with " ++ (lit "id" ++ (lit " " ++
        (formatArg 'v' a ++ (lit ", " ++ (formatArg 's' b ++ lit "\n"))))))) := by
  simp [sprintf, sprintfAux, lit, encodeRune]

theorem sprintf_delivered (d : Deployment) :
    sprintf "Successfully notified Slack about deployment of %v on %v, %v!\n"
        [Arg.str d.ApplicationName, Arg.str d.TargetName, Arg.str d.CommitSha] =
      deliveredLine d := by
  simp [sprintf, sprintfAux, lit, encodeRune, formatArg, deliveredLine]

theorem sprintf_deliveryFailed (d : Deployment) (err : Option GoError) (status : GoString) :
    sprintf "Error while notifying Slack about deployment of %v on %v, %v! err: %s, resp: %s\n"
        [Arg.str d.ApplicationName, Arg.str d.TargetName, Arg.str d.CommitSha,
         Arg.err err, Arg.str status] =
      deliveryFailedLine d err status := by
  cases err <;> simp [sprintf, sprintfAux, lit, encodeRune, formatArg, deliveryFailedLine]

theorem NotifySlack_no_deployment (w : World) (id : Int) (success : Bool) (err : GoError)
    (h : w.getDeployment id = Except.error err) :
    NotifySlack w id success =
      { trace := [Event.getDeployment id,
          Event.log (notFoundLine "deployment" "id" (formatInt id) err)],
        panicked := false } := by
  simp [NotifySlack, h, Run.after, logPrintf, sprintf_deployment, notFoundLine, formatArg]

theorem NotifySlack_no_application (w : World) (id : Int) (success : Bool) (d : Deployment)
    (err : GoError) (h1 : w.getDeployment id = Except.ok d)
    (h2 : w.findApplication d.ApplicationName = Except.error err) :
    NotifySlack w id success =
      { trace := [Event.getDeployment id, Event.findApplication d.ApplicationName,
          Event.log (notFoundLine "application" "name" d.ApplicationName err)],
        panicked := false } := by
  simp [NotifySlack, h1, h2, Run.after, logPrintf, sprintf_application, notFoundLine, formatArg]

theorem NotifySlack_no_target (w : World) (id : Int) (success : Bool) (d : Deployment)
    (a : Application) (err : GoError) (h1 : w.getDeployment id = Except.ok d)
    (h2 : w.findApplication d.ApplicationName = Except.ok a)
    (h3 : w.findTarget a d.TargetName = Except.error err) :
    NotifySlack w id success =
      { trace := [Event.getDeployment id, Event.findApplication d.ApplicationName,
          Event.findTarget a d.TargetName,
          Event.log (notFoundLine "target" "name" d.TargetName err)],
        panicked := false } := by
  simp [NotifySlack, h1, h2, h3, Run.after, logPrintf, sprintf_target, notFoundLine, formatArg]

theorem NotifySlack_disabled (w : World) (id : Int) (success : Bool) (d : Deployment)
    (a : Application) (t : Target) (h1 : w.getDeployment id = Except.ok d)
    (h2 : w.findApplication d.ApplicationName = Except.ok a)
    (h3 : w.findTarget a d.TargetName = Except.ok t) (h4 : t.SlackUrl = []) :
    NotifySlack w id success =
      { trace := [Event.getDeployment id, Event.findApplication d.ApplicationName,
          Event.findTarget a d.TargetName],
        panicked := false } := by
  simp [NotifySlack, h1, h2, h3, h4, Run.after]

theorem NotifySlack_no_user (w : World) (id : Int) (success : Bool) (d : Deployment)
    (a : Application) (t : Target) (err : GoError) (h1 : w.getDeployment id = Except.ok d)
    (h2 : w.findApplication d.ApplicationName = Except.ok a)
    (h3 : w.findTarget a d.TargetName = Except.ok t) (h4 : t.SlackUrl ≠ [])
    (h5 : w.getUser d.UserId = Except.error err) :
    NotifySlack w id success =
      { trace := [Event.getDeployment id, Event.findApplication d.ApplicationName,
          Event.findTarget a d.TargetName, Event.getUser d.UserId,
          Event.log (notFoundLine "User" "id" (formatInt d.UserId) err)],
        panicked := false } := by
  simp [NotifySlack, h1, h2, h3, h4, h5, Run.after, logPrintf, sprintf_user, notFoundLine,
    formatArg]

theorem NotifySlack_resolved (w : World) (id : Int) (success : Bool) (d : Deployment)
    (a : Application) (t : Target) (u : User) (h1 : w.getDeployment id = Except.ok d)
    (h2 : w.findApplication d.ApplicationName = Except.ok a)
    (h3 : w.findTarget a d.TargetName = Except.ok t) (h4 : t.SlackUrl ≠ [])
    (h5 : w.getUser d.UserId = Except.ok u) :
    NotifySlack w id success =
      Run.after [Event.getDeployment id, Event.findApplication d.ApplicationName,
          Event.findTarget a d.TargetName, Event.getUser d.UserId,
          Event.generateSlackSummary d a u success]
        (SendSlackRequest w d t a (generateSlackSummary w.config d a u success).1) := by
  have hs := generateSlackSummary_eq w.config d a u success
  simp [NotifySlack, h1, h2, h3, h4, h5, Run.after, hs]

theorem posts_SendSlackRequest (w : World) (d : Deployment) (t : Target) (a : Application)
    (summary : GoString) :
    posts (SendSlackRequest w d t a summary).trace =
      [(t.SlackUrl, lit "application/json", (jsonMarshal { Text := summary }).1)] := by
  simp only [SendSlackRequest, jsonMarshal, Run.after]
  rcases h : w.httpPost t.SlackUrl (lit "application/json")
      (lit "\x7b\"text\":" ++ encodeString summary ++ lit "\x7d") with ⟨_ | resp, _ | err⟩
  · simp [posts]
  · simp [posts]
  · simp only [List.cons_append, List.nil_append, posts]
    split_ifs <;> rfl
  · simp [posts, logPrintf]

theorem SendSlackRequest_response (w : World) (d : Deployment) (t : Target) (a : Application)
    (summary : GoString) (resp : Response)
    (h : w.httpPost t.SlackUrl (lit "application/json") (jsonMarshal { Text := summary }).1 =
      (some resp, none)) :
    SendSlackRequest w d t a summary =
      { trace := [Event.SendSlackRequest d t a summary,
          Event.httpPost t.SlackUrl (lit "application/json") (jsonMarshal { Text := summary }).1,
          Event.log (if resp.StatusCode = 200 then deliveredLine d
            else deliveryFailedLine d none resp.Status)],
        panicked := false } := by
  unfold SendSlackRequest
  simp only [jsonMarshal] at h ⊢
  rw [h]
  by_cases hc : resp.StatusCode = 200
  · simp [Run.after, hc, logPrintf, sprintf_delivered]
  · simp [Run.after, hc, logPrintf, sprintf_deliveryFailed]

theorem infix_head (x s : GoString) : x <:+: x ++ s :=
  ⟨[], s, by simp⟩

theorem infix_skip (p : GoString) {x r : GoString} (h : x <:+: r) : x <:+: p ++ r := by
  obtain ⟨s, t, e⟩ := h
  exact ⟨p ++ s, t, by simp [← e]⟩

/-! ## The claims -/

/-- C1: on every finite stream of log entries the listener starts, in stream
order, one task `(DeploymentId, EntryType == DEPLOYMENT_SUCCESS)` for each
entry whose type is `DEPLOYMENT_SUCCESS` or `DEPLOYMENT_FAIL` and nothing for
any other entry; a stream without such an entry starts no task. -/
theorem newSlackNotifier_launches {τ : Type} [DecidableEq τ] (S F : τ)
    (logs : List (LogEntry τ)) :
    newSlackNotifier S F logs =
        logs.filterMap (fun entry =>
          if entry.EntryType = S ∨ entry.EntryType = F then
            some { deploymentId := entry.DeploymentId, success := decide (entry.EntryType = S) }
          else none) ∧
      ((∀ entry ∈ logs, entry.EntryType ≠ S ∧ entry.EntryType ≠ F) →
        newSlackNotifier S F logs = []) := by
  induction logs with
  | nil => exact ⟨rfl, fun _ => rfl⟩
  | cons entry logs ih =>
    obtain ⟨ih1, ih2⟩ := ih
    constructor
    · by_cases hS : entry.EntryType = S
      · simp [newSlackNotifier, hS, ih1]
      · by_cases hF : entry.EntryType = F
        · have hFS : ¬ F = S := fun h => hS (hF.trans h)
          simp [newSlackNotifier, hF, ih1, hFS]
        · simp [newSlackNotifier, hS, hF, ih1]
    · intro h
      have h0 := h entry (List.mem_cons_self _ _)
      simp only [newSlackNotifier, if_neg h0.1, if_neg h0.2]
      exact ih2 (fun e he => h e (List.mem_cons_of_mem _ he))

/-- C1 on two concrete streams: one without a deployment result, one with a
success for deployment 1 and a failure for deployment 2. -/
theorem newSlackNotifier_launches_witness :
    (∀ entry ∈ [({ DeploymentId := 1, EntryType := "COMMAND_START" } : LogEntry String),
        { DeploymentId := 1, EntryType := "COMMAND_SUCCESS" }],
      entry.EntryType ≠ "DEPLOYMENT_SUCCESS" ∧ entry.EntryType ≠ "DEPLOYMENT_FAIL") ∧
    newSlackNotifier "DEPLOYMENT_SUCCESS" "DEPLOYMENT_FAIL"
      [({ DeploymentId := 1, EntryType := "COMMAND_START" } : LogEntry String),
        { DeploymentId := 1, EntryType := "COMMAND_SUCCESS" }] = [] ∧
    newSlackNotifier "DEPLOYMENT_SUCCESS" "DEPLOYMENT_FAIL"
      [({ DeploymentId := 1, EntryType := "COMMAND_START" } : LogEntry String),
        { DeploymentId := 1, EntryType := "DEPLOYMENT_SUCCESS" },
        { DeploymentId := 2, EntryType := "COMMAND_FAIL" },
        { DeploymentId := 2, EntryType := "DEPLOYMENT_FAIL" }] =
      [{ deploymentId := 1, success := true }, { deploymentId := 2, success := false }] :=
  ⟨by decide,
   (newSlackNotifier_launches "DEPLOYMENT_SUCCESS" "DEPLOYMENT_FAIL" _).2 (by decide),
   (newSlackNotifier_launches "DEPLOYMENT_SUCCESS" "DEPLOYMENT_FAIL" _).1.trans (by decide)⟩

/-- C2 (what the code does at the failing input): when `http.Post` returns no
response and a transport error, `SendSlackRequest` issues the POST and then
panics on `resp.Status`, an operand of the `log.Printf` call, before that call
runs: no log line is recorded and the function does not return normally. The
task `NotifySlack` runs for deployment 42 in such a world ends the same way. -/
theorem SendSlackRequest_transport_error_panics (w : World) (d : Deployment) (t : Target)
    (a : Application) (summary : GoString) (err : GoError) :
    SendSlackRequest { w with httpPost := fun _ _ _ => (none, some err) } d t a summary =
      { trace := [Event.SendSlackRequest d t a summary,
          Event.httpPost t.SlackUrl (lit "application/json")
            (jsonMarshal { Text := summary }).1],
        panicked := true } ∧
    logLines (SendSlackRequest { w with httpPost := fun _ _ _ => (none, some err) }
      d t a summary).trace = [] ∧
    (NotifySlack transportErrorWorld 42 true).panicked = true ∧
    logLines (NotifySlack transportErrorWorld 42 true).trace = [] := by
  refine ⟨rfl, rfl, by decide, by decide⟩

/-- C4: when `http.Post` returns a response and no transport error,
`SendSlackRequest` issues that one POST and records exactly one log line: the
success line if and only if the status code is 200, and for every other status
code (other 2xx codes included) the delivery-failure line, which carries the
response's status text. -/
theorem SendSlackRequest_status (w : World) (d : Deployment) (t : Target) (a : Application)
    (summary : GoString) (resp : Response)
    (h : w.httpPost t.SlackUrl (lit "application/json") (jsonMarshal { Text := summary }).1 =
      (some resp, none)) :
    (SendSlackRequest w d t a summary).panicked = false ∧
    posts (SendSlackRequest w d t a summary).trace =
      [(t.SlackUrl, lit "application/json", (jsonMarshal { Text := summary }).1)] ∧
    (logLines (SendSlackRequest w d t a summary).trace = [deliveredLine d] ↔
      resp.StatusCode = 200) ∧
    (resp.StatusCode ≠ 200 →
      logLines (SendSlackRequest w d t a summary).trace =
        [deliveryFailedLine d none resp.Status] ∧
      resp.Status <:+: deliveryFailedLine d none resp.Status) := by
  have hne : deliveryFailedLine d none resp.Status ≠ deliveredLine d := by
    intro hc
    have := congrArg List.head? hc
    simp [deliveryFailedLine, deliveredLine, lit, encodeRune] at this
  rw [SendSlackRequest_response w d t a summary resp h]
  refine ⟨rfl, rfl, ?_, ?_⟩
  · by_cases hc : resp.StatusCode = 200
    · simp [hc, logLines]
    · simp [hc, logLines, hne]
  · intro hc
    refine ⟨by simp [hc, logLines], ?_⟩
    unfold deliveryFailedLine
    refine ⟨lit "Error while notifying Slack about deployment of " ++ (d.ApplicationName ++
      (lit " on " ++ (d.TargetName ++ (lit ", " ++ (d.CommitSha ++ (lit "! err: " ++
      (formatArg 's' (Arg.err none) ++ lit ", resp: "))))))), lit "\n", ?_⟩
    simp only [List.append_assoc]

/-- C4 on a webhook answering `201 Created`: the failure line is recorded. -/
theorem SendSlackRequest_status_witness :
    createdWorld.httpPost demoTarget.SlackUrl (lit "application/json")
        (jsonMarshal { Text := lit "app Successfully Deployed" }).1 =
      (some { Status := lit "201 Created", StatusCode := 201 }, none) ∧
    ((SendSlackRequest createdWorld demoDeployment demoTarget demoApplication
        (lit "app Successfully Deployed")).panicked = false ∧
    posts (SendSlackRequest createdWorld demoDeployment demoTarget demoApplication
        (lit "app Successfully Deployed")).trace =
      [(demoTarget.SlackUrl, lit "application/json",
        (jsonMarshal { Text := lit "app Successfully Deployed" }).1)] ∧
    (logLines (SendSlackRequest createdWorld demoDeployment demoTarget demoApplication
        (lit "app Successfully Deployed")).trace = [deliveredLine demoDeployment] ↔
      (201 : Int) = 200) ∧
    ((201 : Int) ≠ 200 →
      logLines (SendSlackRequest createdWorld demoDeployment demoTarget demoApplication
        (lit "app Successfully Deployed")).trace =
        [deliveryFailedLine demoDeployment none (lit "201 Created")] ∧
      lit "201 Created" <:+: deliveryFailedLine demoDeployment none (lit "201 Created"))) :=
  ⟨rfl, SendSlackRequest_status createdWorld demoDeployment demoTarget demoApplication
    (lit "app Successfully Deployed") { Status := lit "201 Created", StatusCode := 201 } rfl⟩

/-- C5: if `getDeployment` fails for the id, `NotifySlack` issues no POST,
makes no application, target or user lookup (its only steps are the deployment
lookup and one log call) and records exactly one log line, which names the
deployment as not found and contains the id as `%v` prints it. -/
theorem NotifySlack_deployment_not_found (w : World) (deploymentId : Int) (success : Bool)
    (err : GoError) (h : w.getDeployment deploymentId = Except.error err) :
    posts (NotifySlack w deploymentId success).trace = [] ∧
    (NotifySlack w deploymentId success).trace =
      [Event.getDeployment deploymentId,
       Event.log (notFoundLine "deployment" "id" (formatInt deploymentId) err)] ∧
    logLines (NotifySlack w deploymentId success).trace =
      [notFoundLine "deployment" "id" (formatInt deploymentId) err] ∧
    lit "Could not find deployment" <:+:
      notFoundLine "deployment" "id" (formatInt deploymentId) err ∧
    formatInt deploymentId <:+: notFoundLine "deployment" "id" (formatInt deploymentId) err ∧
    (NotifySlack w deploymentId success).panicked = false := by
  rw [NotifySlack_no_deployment w deploymentId success err h]
  refine ⟨rfl, rfl, rfl, ?_, ?_, rfl⟩
  · refine ⟨[], lit " with " ++ (lit "id" ++ (lit " " ++ (formatInt deploymentId ++
      (lit ", " ++ (err ++ lit "\n"))))), ?_⟩
    simp [notFoundLine, lit, encodeRune]
  · refine ⟨lit "Could not find deployment with id ", lit ", " ++ (err ++ lit "\n"), ?_⟩
    simp [notFoundLine, lit, encodeRune]

/-- C5 for deployment id 42 in a world whose storage knows no deployment. -/
theorem NotifySlack_deployment_not_found_witness :
    noDeploymentWorld.getDeployment 42 = Except.error (lit "sql: no rows in result set") ∧
    formatInt 42 = lit "42" ∧
    notFoundLine "deployment" "id" (formatInt 42) (lit "sql: no rows in result set") =
      lit "Could not find deployment with id 42, sql: no rows in result set\n" ∧
    (posts (NotifySlack noDeploymentWorld 42 true).trace = [] ∧
    (NotifySlack noDeploymentWorld 42 true).trace =
      [Event.getDeployment 42,
       Event.log (notFoundLine "deployment" "id" (formatInt 42)
        (lit "sql: no rows in result set"))] ∧
    logLines (NotifySlack noDeploymentWorld 42 true).trace =
      [notFoundLine "deployment" "id" (formatInt 42) (lit "sql: no rows in result set")] ∧
    lit "Could not find deployment" <:+:
      notFoundLine "deployment" "id" (formatInt 42) (lit "sql: no rows in result set") ∧
    formatInt 42 <:+:
      notFoundLine "deployment" "id" (formatInt 42) (lit "sql: no rows in result set") ∧
    (NotifySlack noDeploymentWorld 42 true).panicked = false) :=
  ⟨rfl, by decide, by decide,
    NotifySlack_deployment_not_found noDeploymentWorld 42 true
      (lit "sql: no rows in result set") rfl⟩

/-- C6: when the Deployment, the Application and the Target resolve and the
Target's `SlackUrl` is empty, `NotifySlack` stops after the three lookups: it
does not call `SendSlackRequest`, renders no summary, issues no POST and
records no log line. -/
theorem NotifySlack_disabled_target_silent (w : World) (deploymentId : Int) (success : Bool)
    (d : Deployment) (a : Application) (t : Target)
    (h1 : w.getDeployment deploymentId = Except.ok d)
    (h2 : w.findApplication d.ApplicationName = Except.ok a)
    (h3 : w.findTarget a d.TargetName = Except.ok t) (h4 : t.SlackUrl = []) :
    (NotifySlack w deploymentId success).trace =
      [Event.getDeployment deploymentId, Event.findApplication d.ApplicationName,
       Event.findTarget a d.TargetName] ∧
    (∀ d' t' a' s', Event.SendSlackRequest d' t' a' s' ∉
      (NotifySlack w deploymentId success).trace) ∧
    (∀ d' a' u' b', Event.generateSlackSummary d' a' u' b' ∉
      (NotifySlack w deploymentId success).trace) ∧
    logLines (NotifySlack w deploymentId success).trace = [] ∧
    posts (NotifySlack w deploymentId success).trace = [] ∧
    (NotifySlack w deploymentId success).panicked = false := by
  rw [NotifySlack_disabled w deploymentId success d a t h1 h2 h3 h4]
  refine ⟨rfl, ?_, ?_, rfl, rfl, rfl⟩
  · intro d' t' a' s' hmem
    simp at hmem
  · intro d' a' u' b' hmem
    simp at hmem

/-- C6 for deployment 42 in a world whose target has no webhook. -/
theorem NotifySlack_disabled_target_silent_witness :
    disabledWorld.getDeployment 42 = Except.ok demoDeployment ∧
    disabledWorld.findApplication demoDeployment.ApplicationName = Except.ok demoApplication ∧
    disabledWorld.findTarget demoApplication demoDeployment.TargetName =
      Except.ok disabledTarget ∧
    disabledTarget.SlackUrl = [] ∧
    ((NotifySlack disabledWorld 42 true).trace =
      [Event.getDeployment 42, Event.findApplication demoDeployment.ApplicationName,
       Event.findTarget demoApplication demoDeployment.TargetName] ∧
    (∀ d' t' a' s', Event.SendSlackRequest d' t' a' s' ∉
      (NotifySlack disabledWorld 42 true).trace) ∧
    (∀ d' a' u' b', Event.generateSlackSummary d' a' u' b' ∉
      (NotifySlack disabledWorld 42 true).trace) ∧
    logLines (NotifySlack disabledWorld 42 true).trace = [] ∧
    posts (NotifySlack disabledWorld 42 true).trace = [] ∧
    (NotifySlack disabledWorld 42 true).panicked = false) :=
  ⟨rfl, rfl, rfl, rfl,
    NotifySlack_disabled_target_silent disabledWorld 42 true demoDeployment demoApplication
      disabledTarget rfl rfl rfl rfl⟩

/-- C7, counterexample: in a world where deployment 42, its application and
its target resolve, the target's `SlackUrl` is empty and `getUser` fails for
the deployment's `UserId`, `NotifySlack` never looks the user up and records
no log line at all: no NotFound(User) failure is recorded. -/
theorem NotifySlack_user_failure_not_recorded :
    disabledNoUserWorld.getDeployment 42 = Except.ok demoDeployment ∧
    disabledNoUserWorld.findApplication demoDeployment.ApplicationName =
      Except.ok demoApplication ∧
    disabledNoUserWorld.findTarget demoApplication demoDeployment.TargetName =
      Except.ok disabledTarget ∧
    disabledNoUserWorld.getUser demoDeployment.UserId =
      Except.error (lit "sql: no rows in result set") ∧
    Event.getUser demoDeployment.UserId ∉ (NotifySlack disabledNoUserWorld 42 true).trace ∧
    logLines (NotifySlack disabledNoUserWorld 42 true).trace = [] :=
  ⟨rfl, rfl, rfl, rfl, by decide, by decide⟩

/-- C7, amended: the lookups run in the order Deployment, Application, Target,
User. When the first three resolve and `getUser` fails for the Deployment's
`UserId`: if the Target's `SlackUrl` is non-empty, the run is the four lookups
in that order followed by one log line reporting the User as not found, and no
POST is issued; if the `SlackUrl` is empty, the run stops after the Target
lookup, before the User lookup, with no log line and no POST. -/
theorem NotifySlack_user_not_found (w : World) (deploymentId : Int) (success : Bool)
    (d : Deployment) (a : Application) (t : Target) (err : GoError)
    (h1 : w.getDeployment deploymentId = Except.ok d)
    (h2 : w.findApplication d.ApplicationName = Except.ok a)
    (h3 : w.findTarget a d.TargetName = Except.ok t)
    (h5 : w.getUser d.UserId = Except.error err) :
    (t.SlackUrl ≠ [] →
      (NotifySlack w deploymentId success).trace =
        [Event.getDeployment deploymentId, Event.findApplication d.ApplicationName,
         Event.findTarget a d.TargetName, Event.getUser d.UserId,
         Event.log (notFoundLine "User" "id" (formatInt d.UserId) err)] ∧
      posts (NotifySlack w deploymentId success).trace = [] ∧
      (NotifySlack w deploymentId success).panicked = false) ∧
    (t.SlackUrl = [] →
      (NotifySlack w deploymentId success).trace =
        [Event.getDeployment deploymentId, Event.findApplication d.ApplicationName,
         Event.findTarget a d.TargetName] ∧
      logLines (NotifySlack w deploymentId success).trace = [] ∧
      posts (NotifySlack w deploymentId success).trace = [] ∧
      (NotifySlack w deploymentId success).panicked = false) := by
  constructor
  · intro h4
    rw [NotifySlack_no_user w deploymentId success d a t err h1 h2 h3 h4 h5]
    exact ⟨rfl, rfl, rfl⟩
  · intro h4
    rw [NotifySlack_disabled w deploymentId success d a t h1 h2 h3 h4]
    exact ⟨rfl, rfl, rfl, rfl⟩

/-- C7 as amended, for deployment 42 in a world whose storage knows no user
and whose target has a webhook. -/
theorem NotifySlack_user_not_found_witness :
    noUserWorld.getDeployment 42 = Except.ok demoDeployment ∧
    noUserWorld.findApplication demoDeployment.ApplicationName = Except.ok demoApplication ∧
    noUserWorld.findTarget demoApplication demoDeployment.TargetName = Except.ok demoTarget ∧
    noUserWorld.getUser demoDeployment.UserId = Except.error (lit "sql: no rows in result set") ∧
    demoTarget.SlackUrl ≠ [] ∧
    notFoundLine "User" "id" (formatInt demoDeployment.UserId)
        (lit "sql: no rows in result set") =
      lit "Could not find User with id 7, sql: no rows in result set\n" ∧
    ((NotifySlack noUserWorld 42 true).trace =
        [Event.getDeployment 42, Event.findApplication demoDeployment.ApplicationName,
         Event.findTarget demoApplication demoDeployment.TargetName,
         Event.getUser demoDeployment.UserId,
         Event.log (notFoundLine "User" "id" (formatInt demoDeployment.UserId)
          (lit "sql: no rows in result set"))] ∧
      posts (NotifySlack noUserWorld 42 true).trace = [] ∧
      (NotifySlack noUserWorld 42 true).panicked = false) :=
  ⟨rfl, rfl, rfl, rfl, by decide, by decide,
    (NotifySlack_user_not_found noUserWorld 42 true demoDeployment demoApplication demoTarget
      (lit "sql: no rows in result set") rfl rfl rfl rfl).1 (by decide)⟩

/-- C8: the text `generateSlackSummary` returns contains the commit link
`https://github.com/{owner}/{repo}/commit/{sha}` and the deployment link
`{scheme}://{Host}/{repo}/deployments/{id}`, the scheme being `https` when
`SSLEnabled` is true and `http` otherwise, and no error is returned; for owner
acme, repo app, sha abc123, Host ci.acme.com and `SSLEnabled` true the links
are `https://github.com/acme/app/commit/abc123` and
`https://ci.acme.com/app/deployments/` followed by the id. -/
theorem generateSlackSummary_links (config : Config) (d : Deployment) (a : Application)
    (u : User) (success : Bool) :
    (lit "https://github.com/" ++ (a.GitHubOwner ++ (lit "/" ++ (a.GitHubRepo ++
        (lit "/commit/" ++ d.CommitSha))))) <:+:
      (generateSlackSummary config d a u success).1 ∧
    ((if config.SSLEnabled = true then lit "https" else lit "http") ++ (lit "://" ++
        (config.Host ++ (lit "/" ++ (a.GitHubRepo ++ (lit "/deployments/" ++
        formatInt d.Id)))))) <:+:
      (generateSlackSummary config d a u success).1 ∧
    (generateSlackSummary config d a u success).2 = none ∧
    lit "https://github.com/acme/app/commit/abc123" <:+:
      (generateSlackSummary { Host := lit "ci.acme.com", SSLEnabled := true }
        { d with CommitSha := lit "abc123" }
        { a with GitHubOwner := lit "acme", GitHubRepo := lit "app" } u success).1 ∧
    (lit "https://ci.acme.com/app/deployments/" ++ formatInt d.Id) <:+:
      (generateSlackSummary { Host := lit "ci.acme.com", SSLEnabled := true }
        { d with CommitSha := lit "abc123" }
        { a with GitHubOwner := lit "acme", GitHubRepo := lit "app" } u success).1 := by
  have key : ∀ (config : Config) (d : Deployment) (a : Application),
      commitLink a d <:+: (generateSlackSummary config d a u success).1 ∧
      deploymentLink config a d <:+: (generateSlackSummary config d a u success).1 := by
    intro config d a
    rw [generateSlackSummary_eq, sprintf_gitHubUrl, sprintf_deploymentUrl]
    constructor
    · unfold commitLink
      repeat (first | exact infix_head _ _ | apply infix_skip)
    · unfold deploymentLink
      repeat (first | exact infix_head _ _ | apply infix_skip)
  refine ⟨(key config d a).1, (key config d a).2, ?_, ?_, ?_⟩
  · rw [generateSlackSummary_eq]
  · have h := (key { Host := lit "ci.acme.com", SSLEnabled := true }
      { d with CommitSha := lit "abc123" }
      { a with GitHubOwner := lit "acme", GitHubRepo := lit "app" }).1
    have e : commitLink { a with GitHubOwner := lit "acme", GitHubRepo := lit "app" }
        { d with CommitSha := lit "abc123" } =
        lit "https://github.com/acme/app/commit/abc123" := by
      simp [commitLink, lit, encodeRune]
    rw [e] at h
    exact h
  · have h := (key { Host := lit "ci.acme.com", SSLEnabled := true }
      { d with CommitSha := lit "abc123" }
      { a with GitHubOwner := lit "acme", GitHubRepo := lit "app" }).2
    have e : deploymentLink { Host := lit "ci.acme.com", SSLEnabled := true }
        { a with GitHubOwner := lit "acme", GitHubRepo := lit "app" }
        { d with CommitSha := lit "abc123" } =
        lit "https://ci.acme.com/app/deployments/" ++ formatInt d.Id := by
      simp [deploymentLink, lit, encodeRune]
    rw [e] at h
    exact h

/-- C9: the texts returned for `success = true` and `success = false` differ
only in the phrase: both are the repository name, a space, the phrase
(`Successfully Deployed`, respectively `Deploy Failed`) and the same tail from
the colon on (deployer, branch, target, comment and both links). -/
theorem generateSlackSummary_success_failure (config : Config) (d : Deployment)
    (a : Application) (u : User) :
    generateSlackSummary config d a u true =
      (a.GitHubRepo ++ (lit " " ++ (lit "Successfully Deployed" ++ summaryTail config d a u)),
        none) ∧
    generateSlackSummary config d a u false =
      (a.GitHubRepo ++ (lit " " ++ (lit "Deploy Failed" ++ summaryTail config d a u)),
        none) := by
  constructor <;>
    simp [generateSlackSummary_eq, sprintf_gitHubUrl, sprintf_deploymentUrl, summaryTail,
      commitLink, deploymentLink]

/-- C10, counterexample: for deployment id 42, when the Deployment resolves and
`findApplication` fails, the one log line recorded is
`Could not find application with name app, application not found`; it does not
contain the deployment id 42. -/
theorem NotifySlack_failure_line_without_id :
    noApplicationWorld.getDeployment 42 = Except.ok demoDeployment ∧
    noApplicationWorld.findApplication demoDeployment.ApplicationName =
      Except.error (lit "application not found") ∧
    logLines (NotifySlack noApplicationWorld 42 true).trace =
      [lit "Could not find application with name app, application not found\n"] ∧
    ¬ (formatInt 42 <:+:
      lit "Could not find application with name app, application not found\n") :=
  ⟨rfl, rfl, by decide, by decide⟩

/-- C10, amended: each resolution failure in `NotifySlack` records exactly one
log line, which names the kind of the missing entity and the key the failed
lookup used, followed by the lookup's error: the deployment id for a
Deployment, the Deployment's `ApplicationName` for an Application, its
`TargetName` for a Target, its `UserId` for a User (the User lookup runs only
when the Target's `SlackUrl` is non-empty). -/
theorem NotifySlack_failure_lines :
    (∀ (w : World) (deploymentId : Int) (success : Bool) (err : GoError),
      w.getDeployment deploymentId = Except.error err →
      logLines (NotifySlack w deploymentId success).trace =
        [notFoundLine "deployment" "id" (formatInt deploymentId) err]) ∧
    (∀ (w : World) (deploymentId : Int) (success : Bool) (d : Deployment) (err : GoError),
      w.getDeployment deploymentId = Except.ok d →
      w.findApplication d.ApplicationName = Except.error err →
      logLines (NotifySlack w deploymentId success).trace =
        [notFoundLine "application" "name" d.ApplicationName err]) ∧
    (∀ (w : World) (deploymentId : Int) (success : Bool) (d : Deployment) (a : Application)
      (err : GoError),
      w.getDeployment deploymentId = Except.ok d →
      w.findApplication d.ApplicationName = Except.ok a →
      w.findTarget a d.TargetName = Except.error err →
      logLines (NotifySlack w deploymentId success).trace =
        [notFoundLine "target" "name" d.TargetName err]) ∧
    (∀ (w : World) (deploymentId : Int) (success : Bool) (d : Deployment) (a : Application)
      (t : Target) (err : GoError),
      w.getDeployment deploymentId = Except.ok d →
      w.findApplication d.ApplicationName = Except.ok a →
      w.findTarget a d.TargetName = Except.ok t →
      t.SlackUrl ≠ [] →
      w.getUser d.UserId = Except.error err →
      logLines (NotifySlack w deploymentId success).trace =
        [notFoundLine "User" "id" (formatInt d.UserId) err]) := by
  refine ⟨?_, ?_, ?_, ?_⟩
  · intro w id success err h
    rw [NotifySlack_no_deployment w id success err h]
    rfl
  · intro w id success d err h1 h2
    rw [NotifySlack_no_application w id success d err h1 h2]
    rfl
  · intro w id success d a err h1 h2 h3
    rw [NotifySlack_no_target w id success d a err h1 h2 h3]
    rfl
  · intro w id success d a t err h1 h2 h3 h4 h5
    rw [NotifySlack_no_user w id success d a t err h1 h2 h3 h4 h5]
    rfl

/-- C10 as amended, on four worlds, one for each lookup that fails. -/
theorem NotifySlack_failure_lines_witness :
    (logLines (NotifySlack noDeploymentWorld 42 false).trace =
      [notFoundLine "deployment" "id" (formatInt 42) (lit "sql: no rows in result set")] ∧
    notFoundLine "deployment" "id" (formatInt 42) (lit "sql: no rows in result set") =
      lit "Could not find deployment with id 42, sql: no rows in result set\n") ∧
    (logLines (NotifySlack noApplicationWorld 42 false).trace =
      [notFoundLine "application" "name" demoDeployment.ApplicationName
        (lit "application not found")] ∧
    notFoundLine "application" "name" demoDeployment.ApplicationName
        (lit "application not found") =
      lit "Could not find application with name app, application not found\n") ∧
    (logLines (NotifySlack noTargetWorld 42 false).trace =
      [notFoundLine "target" "name" demoDeployment.TargetName (lit "target not found")] ∧
    notFoundLine "target" "name" demoDeployment.TargetName (lit "target not found") =
      lit "Could not find target with name production, target not found\n") ∧
    (logLines (NotifySlack noUserWorld 42 false).trace =
      [notFoundLine "User" "id" (formatInt demoDeployment.UserId)
        (lit "sql: no rows in result set")] ∧
    notFoundLine "User" "id" (formatInt demoDeployment.UserId)
        (lit "sql: no rows in result set") =
      lit "Could not find User with id 7, sql: no rows in result set\n") :=
  ⟨⟨NotifySlack_failure_lines.1 noDeploymentWorld 42 false _ rfl, by decide⟩,
   ⟨NotifySlack_failure_lines.2.1 noApplicationWorld 42 false demoDeployment _ rfl rfl,
    by decide⟩,
   ⟨NotifySlack_failure_lines.2.2.1 noTargetWorld 42 false demoDeployment demoApplication _
    rfl rfl rfl, by decide⟩,
   ⟨NotifySlack_failure_lines.2.2.2 noUserWorld 42 false demoDeployment demoApplication
    demoTarget _ rfl rfl rfl (by decide) rfl, by decide⟩⟩

/-- C3, counterexample: deployment 42 resolves completely (non-empty
`SlackUrl`) with a comment that is the single byte 0xFF. One POST is issued,
but its body decodes to an object whose field `text` holds the summary with
that byte replaced by U+FFFD, which is not the string `generateSlackSummary`
returned. -/
theorem NotifySlack_body_differs_from_summary :
    rawByteWorld.getDeployment 42 = Except.ok rawByteDeployment ∧
    rawByteWorld.findApplication rawByteDeployment.ApplicationName =
      Except.ok demoApplication ∧
    rawByteWorld.findTarget demoApplication rawByteDeployment.TargetName =
      Except.ok demoTarget ∧
    demoTarget.SlackUrl ≠ [] ∧
    rawByteWorld.getUser rawByteDeployment.UserId = Except.ok demoUser ∧
    ValidString
      (generateSlackSummary rawByteWorld.config rawByteDeployment demoApplication demoUser
        true).1 = false ∧
    (posts (NotifySlack rawByteWorld 42 true).trace).map
        (fun p => jsonDecodeSingleton p.2.2) =
      [some (lit "text",
        (generateSlackSummary demoConfig { rawByteDeployment with Comment := [0xEF, 0xBF, 0xBD] }
          demoApplication demoUser true).1)] ∧
    (posts (NotifySlack rawByteWorld 42 true).trace).map
        (fun p => jsonDecodeSingleton p.2.2) ≠
      [some (lit "text",
        (generateSlackSummary rawByteWorld.config rawByteDeployment demoApplication demoUser
          true).1)] :=
  ⟨rfl, rfl, rfl, by decide, rfl, by decide, by decide, by decide⟩

/-- C3, amended: `NotifySlack` issues exactly one POST when the Deployment,
the Application, the Target (with a non-empty `SlackUrl`) and the User all
resolve, and no POST in every other case. The one POST goes to the resolved
Target's `SlackUrl` with content type `application/json`, and its body is the
`json.Marshal` encoding of the `slackMsg` holding the summary; whenever the
summary is valid UTF-8 (`utf8.ValidString`) the body decodes as JSON to the
object with the single field `text` equal to the summary. -/
theorem NotifySlack_posts (w : World) (deploymentId : Int) (success : Bool) :
    (∀ (d : Deployment) (a : Application) (t : Target) (u : User),
      w.getDeployment deploymentId = Except.ok d →
      w.findApplication d.ApplicationName = Except.ok a →
      w.findTarget a d.TargetName = Except.ok t →
      t.SlackUrl ≠ [] →
      w.getUser d.UserId = Except.ok u →
      posts (NotifySlack w deploymentId success).trace =
        [(t.SlackUrl, lit "application/json",
          (jsonMarshal { Text := (generateSlackSummary w.config d a u success).1 }).1)] ∧
      (ValidString (generateSlackSummary w.config d a u success).1 = true →
        jsonDecodeSingleton
            (jsonMarshal { Text := (generateSlackSummary w.config d a u success).1 }).1 =
          some (lit "text", (generateSlackSummary w.config d a u success).1))) ∧
    ((¬ ∃ (d : Deployment) (a : Application) (t : Target) (u : User),
        w.getDeployment deploymentId = Except.ok d ∧
        w.findApplication d.ApplicationName = Except.ok a ∧
        w.findTarget a d.TargetName = Except.ok t ∧
        t.SlackUrl ≠ [] ∧
        w.getUser d.UserId = Except.ok u) →
      posts (NotifySlack w deploymentId success).trace = []) := by
  constructor
  · intro d a t u h1 h2 h3 h4 h5
    constructor
    · rw [NotifySlack_resolved w deploymentId success d a t u h1 h2 h3 h4 h5]
      have hp := posts_SendSlackRequest w d t a (generateSlackSummary w.config d a u success).1
      simp only [Run.after, List.cons_append, List.nil_append, posts]
      exact hp
    · exact jsonDecode_jsonMarshal_valid _
  · intro hno
    rcases h1 : w.getDeployment deploymentId with err | d
    · rw [NotifySlack_no_deployment w deploymentId success err h1]
      rfl
    · rcases h2 : w.findApplication d.ApplicationName with err | a
      · rw [NotifySlack_no_application w deploymentId success d err h1 h2]
        rfl
      · rcases h3 : w.findTarget a d.TargetName with err | t
        · rw [NotifySlack_no_target w deploymentId success d a err h1 h2 h3]
          rfl
        · by_cases h4 : t.SlackUrl = []
          · rw [NotifySlack_disabled w deploymentId success d a t h1 h2 h3 h4]
            rfl
          · rcases h5 : w.getUser d.UserId with err | u
            · rw [NotifySlack_no_user w deploymentId success d a t err h1 h2 h3 h4 h5]
              rfl
            · exact absurd ⟨d, a, t, u, h1, h2, h3, h4, h5⟩ hno

/-- C3 as amended, for deployment 42: in a world where everything resolves,
and in a world whose storage knows no deployment. -/
theorem NotifySlack_posts_witness :
    demoWorld.getDeployment 42 = Except.ok demoDeployment ∧
    demoWorld.findApplication demoDeployment.ApplicationName = Except.ok demoApplication ∧
    demoWorld.findTarget demoApplication demoDeployment.TargetName = Except.ok demoTarget ∧
    demoTarget.SlackUrl ≠ [] ∧
    demoWorld.getUser demoDeployment.UserId = Except.ok demoUser ∧
    (generateSlackSummary demoWorld.config demoDeployment demoApplication demoUser true).1 =
      lit demoSummary ∧
    ValidString
      (generateSlackSummary demoWorld.config demoDeployment demoApplication demoUser true).1 =
      true ∧
    posts (NotifySlack demoWorld 42 true).trace =
      [(demoTarget.SlackUrl, lit "application/json",
        (jsonMarshal { Text := (generateSlackSummary demoWorld.config demoDeployment
          demoApplication demoUser true).1 }).1)] ∧
    jsonDecodeSingleton
        (jsonMarshal { Text := (generateSlackSummary demoWorld.config demoDeployment
          demoApplication demoUser true).1 }).1 =
      some (lit "text", (generateSlackSummary demoWorld.config demoDeployment
          demoApplication demoUser true).1) ∧
    (¬ ∃ (d : Deployment) (a : Application) (t : Target) (u : User),
        noDeploymentWorld.getDeployment 42 = Except.ok d ∧
        noDeploymentWorld.findApplication d.ApplicationName = Except.ok a ∧
        noDeploymentWorld.findTarget a d.TargetName = Except.ok t ∧
        t.SlackUrl ≠ [] ∧
        noDeploymentWorld.getUser d.UserId = Except.ok u) ∧
    posts (NotifySlack noDeploymentWorld 42 true).trace = [] :=
  have hno : ¬ ∃ (d : Deployment) (a : Application) (t : Target) (u : User),
      noDeploymentWorld.getDeployment 42 = Except.ok d ∧
      noDeploymentWorld.findApplication d.ApplicationName = Except.ok a ∧
      noDeploymentWorld.findTarget a d.TargetName = Except.ok t ∧
      t.SlackUrl ≠ [] ∧
      noDeploymentWorld.getUser d.UserId = Except.ok u := by
    rintro ⟨d, a, t, u, h1, _⟩
    simp [noDeploymentWorld] at h1
  ⟨rfl, rfl, rfl, by decide, rfl, by decide, by decide,
    ((NotifySlack_posts demoWorld 42 true).1 demoDeployment demoApplication demoTarget demoUser
      rfl rfl rfl (by decide) rfl).1,
    ((NotifySlack_posts demoWorld 42 true).1 demoDeployment demoApplication demoTarget demoUser
      rfl rfl rfl (by decide) rfl).2 (by decide),
    hno, (NotifySlack_posts noDeploymentWorld 42 true).2 hno⟩

end SlackNotifier
